import Mathlib

/-!
# Silverstone base-board CPLD driver and Quanta IX9 I2C topology

A shallow embedding of

* `platform/broadcom/sonic-platform-modules-cel/silverstone/modules/baseboard-lpc.c`
  (sysfs callbacks over the CPLD I/O ports), and
* `platform/broadcom/sonic-platform-modules-quanta/ix9-32x/modules/qci_platform_ix9.c`
  (static I2C device tables and their registration order).

C strings are lists of characters; reading past the end of a list reads the
terminating NUL.  Machine integers are naturals with explicit reductions modulo
the width of the C type.  Every callback threads a `World` holding the I/O port
space, the driver data and the sequence of lock and port events it performed.
-/

namespace BaseboardLpc

/-! ## Constants -/

def VERSION_ADDR : Nat := 0xA100
def SCRATCH_ADDR : Nat := 0xA101
def BLT_MONTH_ADDR : Nat := 0xA102
def BLT_DATE_ADDR : Nat := 0xA103
def REBOOT_CAUSE : Nat := 0xA106
def SYS_LED_ADDR : Nat := 0xA162
def CPLD_REGISTER_SIZE : Nat := 0x93

/-- The errno value `EINVAL` of the kernel headers. -/
def EINVAL : Nat := 22

/-- The NUL character that terminates a C string. -/
def NUL : Char := Char.ofNat 0

/-- The newline character. -/
def NL : Char := Char.ofNat 10

/-- Entry of the `reboot_causes` table. -/
structure RebootCause where
  reason : List Char
  reset_code : Nat
deriving DecidableEq

/-- System reboot cause recorded in CPLD. -/
def reboot_causes : List RebootCause :=
  [ ⟨"POR".toList, 0x11⟩,
    ⟨"soft-warm-rst".toList, 0x22⟩,
    ⟨"soft-cold-rst".toList, 0x33⟩,
    ⟨"warm-rst".toList, 0x44⟩,
    ⟨"cold-rst".toList, 0x55⟩,
    ⟨"wdt-rst".toList, 0x66⟩,
    ⟨"power-cycle".toList, 0x77⟩ ]

/-! ## Machine integers -/

/-- Conversion of an integer to the 64-bit unsigned `size_t`. -/
def size_t (x : Int) : Nat := (x % 2 ^ 64).toNat

/-- Conversion of an unsigned 64-bit value to the signed `ssize_t`. -/
def ssize_t (n : Nat) : Int :=
  if n % 2 ^ 64 < 2 ^ 63 then ((n % 2 ^ 64 : Nat) : Int) else ((n % 2 ^ 64 : Nat) : Int) - 2 ^ 64

/-- Conversion to `uint16_t`. -/
def uint16_t (n : Nat) : Nat := n % 2 ^ 16

/-- Conversion to `uint8_t` / `unsigned char` / `u8`. -/
def uint8_t (n : Nat) : Nat := n % 2 ^ 8

/-- Bitwise complement of a non-negative `int` constant, as the 32-bit pattern. -/
def compl32 (n : Nat) : Nat := (2 ^ 32 - 1) ^^^ (n % 2 ^ 32)

/-! ## The world: port space, driver data, event trace -/

/-- Observable events of a callback. -/
inductive Event where
  | lock : Event
  | unlock : Event
  | inb (port : Nat) : Event
  | outb (value : Nat) (port : Nat) : Event
  | msleep (ms : Nat) : Event
deriving DecidableEq

/-- State the callbacks run against: the I/O port space (one byte per 16-bit
port), `cpld_data->read_addr`, and the events performed so far, oldest first. -/
structure World where
  ports : Nat → Nat
  read_addr : Nat
  trace : List Event

/-- Acquire `cpld_data->cpld_lock`. -/
def mutex_lock (w : World) : World :=
  { w with trace := w.trace ++ [Event.lock] }

/-- Release `cpld_data->cpld_lock`. -/
def mutex_unlock (w : World) : World :=
  { w with trace := w.trace ++ [Event.unlock] }

/-- Port read: one byte from a 16-bit port address. -/
def inb (port : Nat) (w : World) : Nat × World :=
  (w.ports (port % 2 ^ 16) % 2 ^ 8,
   { w with trace := w.trace ++ [Event.inb (port % 2 ^ 16)] })

/-- Port write: the low byte of `value` to a 16-bit port address.  The port
reads back the last value written. -/
def outb (value : Nat) (port : Nat) (w : World) : World :=
  { w with
    ports := fun p => if p = port % 2 ^ 16 then value % 2 ^ 8 else w.ports p
    trace := w.trace ++ [Event.outb (value % 2 ^ 8) (port % 2 ^ 16)] }

/-- Sleep for `ms` milliseconds. -/
def msleep (ms : Nat) (w : World) : World :=
  { w with trace := w.trace ++ [Event.msleep ms] }

/-! ## C library pieces used by the callbacks -/

/-- The character a `char *` points at: the head of the list, NUL at its end. -/
def peek (s : List Char) : Char := s.headD NUL

/-- The C string held in a buffer: the characters before the first NUL. -/
def cstr : List Char → List Char
  | [] => []
  | c :: cs => if c = NUL then [] else c :: cstr cs

/-- Writing `text` and its terminating NUL at the start of `buf`; the value
returned is the number of characters written, the NUL excluded. -/
def sprintf (buf : List Char) (text : List Char) : Int × List Char :=
  ((text.length : Int), text ++ NUL :: buf.drop (text.length + 1))

/-! ## reboot_cause -/

/-- The scan of `reboot_cause_show` over the table from index `i` on: the
first entry whose `reset_code` equals `reg` formats its reason. -/
def reboot_cause_scan (reg : Nat) (buf : List Char) : List RebootCause → Int × List Char
  | [] => (0, buf)
  | e :: rest =>
    if uint8_t reg = e.reset_code then sprintf buf (e.reason ++ [NL])
    else reboot_cause_scan reg buf rest

def reboot_cause_show (buf : List Char) (w : World) : Int × List Char × World :=
  let w := mutex_lock w
  let (reg, w) := inb REBOOT_CAUSE w
  let w := mutex_unlock w
  let (status, buf) := reboot_cause_scan reg buf reboot_causes
  (status, buf, w)

/-! ## String helpers of the kernel library -/

/-- Kernel `sysfs_streq(s1, s2)`: equality of two C strings, a single trailing
newline of either one ignored. -/
def sysfs_streq : List Char → List Char → Bool
  | [], s2 =>
    -- `*s1` is NUL: the loop stops at once
    if NUL = peek s2 then true
    else if peek s2 = NL ∧ peek s2.tail = NUL then true
    else false
  | c :: s1, s2 =>
    if c ≠ NUL ∧ c = peek s2 then sysfs_streq s1 s2.tail
    else if c = peek s2 then true
    else if c = NUL ∧ peek s2 = NL ∧ peek s2.tail = NUL then true
    else if c = NL ∧ peek s1 = NUL ∧ peek s2 = NUL then true
    else false

/-- Digit value of a character as `_parse_integer` classifies it: `'0'..'9'`,
or a letter `'a'..'f'` in either case (`lc = c | 0x20`). -/
def digit_val (ch : Char) : Option Nat :=
  let c := ch.toNat
  let lc := c ||| 0x20
  if 0x30 ≤ c ∧ c ≤ 0x39 then some (c - 0x30)
  else if 0x61 ≤ lc ∧ lc ≤ 0x66 then some (lc - 0x61 + 10)
  else none

/-- Kernel `_parse_integer`: accumulates digits below `base` into a 64-bit
result `res`; `rv` counts the characters consumed. -/
def parse_integer (base : Nat) : List Char → Nat → Nat → Nat × Nat
  | [], res, rv => (res, rv)
  | c :: s, res, rv =>
    match digit_val c with
    | none => (res, rv)
    | some val =>
      if val ≥ base then (res, rv)
      else parse_integer base s ((res * base + val) % 2 ^ 64) (rv + 1)

/-- Kernel `_parse_integer_fixup_radix` for base 16: the number of characters
of a leading `0x` / `0X` that are skipped. -/
def parse_integer_fixup_radix (s : List Char) : Nat :=
  if peek s = '0' ∧ (peek s.tail).toNat ||| 0x20 = 'x'.toNat then 2 else 0

/-- Kernel `strtoul(cp, &last, 16)`, which inside the kernel is
`simple_strtoul`: an optional `0x` and then hexadecimal digits, with no
white space and no sign accepted.  The result is the value parsed and the
number of characters `last - cp` consumed. -/
def strtoul (cp : List Char) : Nat × Nat :=
  let skip := parse_integer_fixup_radix cp
  let (result, rv) := parse_integer 16 (cp.drop skip) 0 0
  (result, skip + rv)

/-- Kernel `strsep(&s, ct)`: the token before the first character of `ct`,
and the rest of the string after it (`none` is the NULL pointer). -/
def strsep (s : Option (List Char)) (ct : List Char) :
    Option (List Char) × Option (List Char) :=
  match s with
  | none => (none, none)
  | some sbegin =>
    match sbegin.span (fun c => !ct.contains c) with
    | (_, []) => (some sbegin, none)
    | (tok, _ :: rest) => (some tok, some rest)

/-! ## Number formatting -/

/-- The conversion `%d` of a non-negative value. -/
def fmt_d (n : Nat) : List Char := Nat.toDigits 10 n

/-- The conversion `%x`. -/
def fmt_x (n : Nat) : List Char := Nat.toDigits 16 n

/-- The conversion `%2.2x`: at least two hexadecimal digits. -/
def fmt_2_2x (n : Nat) : List Char :=
  List.replicate (2 - (fmt_x n).length) '0' ++ fmt_x n

/-! ## scratch -/

def scratch_show (buf : List Char) (w : World) : Int × List Char × World :=
  let w := mutex_lock w
  let (data, w) := inb SCRATCH_ADDR w
  let w := mutex_unlock w
  let (n, buf) := sprintf buf ("0x".toList ++ fmt_2_2x data ++ [NL])
  (n, buf, w)

def scratch_store (buf : List Char) (count : Nat) (w : World) : Int × World :=
  let w := mutex_lock w
  let (r, last) := strtoul buf
  let data := uint16_t r
  if data = 0 ∧ last = 0 then
    let w := mutex_unlock w
    (-(EINVAL : Int), w)
  else
    let w := outb data SCRATCH_ADDR w
    let w := mutex_unlock w
    (ssize_t count, w)

/-! ## version and build date -/

def version_show (buf : List Char) (w : World) : Int × List Char × World :=
  let w := mutex_lock w
  let (version, w) := inb VERSION_ADDR w
  let w := mutex_unlock w
  let (n, buf) := sprintf buf (fmt_d (version >>> 4) ++ ['.'] ++ fmt_d (version &&& 0x0F) ++ [NL])
  (n, buf, w)

def build_date_show (buf : List Char) (w : World) : Int × List Char × World :=
  let w := mutex_lock w
  let (day_of_month, w) := inb BLT_DATE_ADDR w
  let (month, w) := inb BLT_MONTH_ADDR w
  let w := mutex_unlock w
  let (n, buf) := sprintf buf (fmt_x day_of_month ++ ['/'] ++ fmt_x month ++ [NL])
  (n, buf, w)

/-! ## getreg and setreg -/

def getreg_store (buf : List Char) (count : Nat) (w : World) : Int × World :=
  let (r, last) := strtoul buf
  let addr := uint16_t r
  if addr = 0 ∧ last = 0 then
    (-(EINVAL : Int), w)
  else
    (ssize_t count, { w with read_addr := addr })

def getreg_show (buf : List Char) (w : World) : Int × List Char × World :=
  let w := mutex_lock w
  let (data, w) := inb w.read_addr w
  let (len, buf) := sprintf buf ("0x".toList ++ fmt_2_2x data ++ [NL])
  let w := mutex_unlock w
  (len, buf, w)

/-- Whether `strcpy(clone, buf)` stays inside `char clone[count]`: the copy
writes the `strlen(buf)` characters of the string and its terminating NUL. -/
def strcpy_fits (buf : List Char) (count : Nat) : Bool :=
  decide ((cstr buf).length + 1 ≤ count)

/-- The callback `setreg_store`.  It copies `buf` into the array
`char clone[count]` with `strcpy`.  When the string and its NUL do not fit,
`strcpy` writes past the end of `clone` onto the neighbouring stack bytes; the
value the function returns is then not determined by the source, and the
model gives `none` for it.  The lock and port events are those of the
statements in source order. -/
def setreg_store (buf : List Char) (count : Nat) (w : World) : Option Int × World :=
  -- `strcpy(clone, buf)`: the characters of `buf` before its first NUL
  let pclone : Option (List Char) := some (cstr buf)
  -- the value of a `return`, defined when the copy stayed inside `clone`
  let ret : Int → Option Int := fun x => if strcpy_fits buf count then some x else none
  let w := mutex_lock w
  match strsep pclone [' '] with
  | (none, _) =>
    let w := mutex_unlock w
    (ret (-(EINVAL : Int)), w)
  | (some tok, pclone) =>
    let (r, last) := strtoul tok
    let addr := uint16_t r
    if addr = 0 ∧ last = 0 then
      let w := mutex_unlock w
      (ret (-(EINVAL : Int)), w)
    else
      match strsep pclone [' '] with
      | (none, _) =>
        let w := mutex_unlock w
        (ret (-(EINVAL : Int)), w)
      | (some tok, _) =>
        let (r, last) := strtoul tok
        let value := uint8_t r
        if value = 0 ∧ last = 0 then
          let w := mutex_unlock w
          (ret (-(EINVAL : Int)), w)
        else
          let w := outb value addr w
          let w := mutex_unlock w
          (ret (ssize_t count), w)

/-! ## dump -/

/-- The loop of `dump_read` at label `begin`.  The first argument bounds the
number of iterations left; `dump_read` starts it at `count`, which is the
number of iterations the test `i < count` allows from `i = 0`. -/
def dump_read_loop (count : Nat) : Nat → Nat → Nat → List Char → World → List Char × World
  | 0, _, _, buf, w => (buf, w)
  | fuel + 1, i, off, buf, w =>
    if i < count then
      let (b, w) := inb (VERSION_ADDR + off) w
      let buf := buf.set i (Char.ofNat b)
      let w := msleep 1 w
      dump_read_loop count fuel (i + 1) (off + 1) buf w
    else (buf, w)

/-- Read all CPLD register in binary mode. -/
def dump_read (buf : List Char) (off : Nat) (count : Nat) (w : World) :
    Int × List Char × World :=
  let w := mutex_lock w
  let (buf, w) := dump_read_loop count count 0 off buf w
  let status := ssize_t count
  let w := mutex_unlock w
  (status, buf, w)

/-! ## sys_led and sys_led_color -/

/-- Show system led status - on/off/1hz/4hz. -/
def sys_led_show (buf : List Char) (w : World) : Int × List Char × World :=
  let w := mutex_lock w
  let (data, w) := inb SYS_LED_ADDR w
  let w := mutex_unlock w
  let data := uint8_t (data &&& 0x3)
  let (n, buf) := sprintf buf
    ((if data = 0x03 then "off".toList else if data = 0x02 then "4hz".toList
      else if data = 0x01 then "1hz".toList else "on".toList) ++ [NL])
  (n, buf, w)

/-- The `if` / `else if` chain at the head of `sys_led_store`: the value
assigned to `led_status`, or `none` on the final `else` branch. -/
def sys_led_status (buf : List Char) : Option Nat :=
  if sysfs_streq buf "off".toList then some 0x03
  else if sysfs_streq buf "4hz".toList then some 0x02
  else if sysfs_streq buf "1hz".toList then some 0x01
  else if sysfs_streq buf "on".toList then some 0x00
  else none

/-- Set the status of system led - on/off/1hz/4hz. -/
def sys_led_store (buf : List Char) (count : Nat) (w : World) : Int × World :=
  match sys_led_status buf with
  | none =>
    let count := size_t (-(EINVAL : Int))
    (ssize_t count, w)
  | some led_status =>
    let w := mutex_lock w
    let (data, w) := inb SYS_LED_ADDR w
    let data := uint8_t (data &&& compl32 0x3)
    let data := uint8_t (data ||| led_status)
    let w := outb data SYS_LED_ADDR w
    let w := mutex_unlock w
    (ssize_t count, w)

/-- Show system led color - both/green/yellow/none. -/
def sys_led_color_show (buf : List Char) (w : World) : Int × List Char × World :=
  let w := mutex_lock w
  let (data, w) := inb SYS_LED_ADDR w
  let w := mutex_unlock w
  let data := uint8_t ((data >>> 4) &&& 0x3)
  let (n, buf) := sprintf buf
    ((if data = 0x03 then "off".toList else if data = 0x02 then "yellow".toList
      else if data = 0x01 then "green".toList else "both".toList) ++ [NL])
  (n, buf, w)

/-- The `if` / `else if` chain at the head of `sys_led_color_store`: the
value assigned to `led_status`, or `none` on the final `else` branch. -/
def sys_led_color_status (buf : List Char) : Option Nat :=
  if sysfs_streq buf "off".toList then some 0x03
  else if sysfs_streq buf "yellow".toList then some 0x02
  else if sysfs_streq buf "green".toList then some 0x01
  else if sysfs_streq buf "both".toList then some 0x00
  else none

/-- Set the color of system led - both/green/yellow/none. -/
def sys_led_color_store (buf : List Char) (count : Nat) (w : World) : Int × World :=
  match sys_led_color_status buf with
  | none =>
    let count := size_t (-(EINVAL : Int))
    (ssize_t count, w)
  | some led_status =>
    let w := mutex_lock w
    let (data, w) := inb SYS_LED_ADDR w
    let data := uint8_t (data &&& compl32 (0x3 <<< 4))
    let data := uint8_t (data ||| (led_status <<< 4))
    let w := outb data SYS_LED_ADDR w
    let w := mutex_unlock w
    (ssize_t count, w)

/-! ## The attribute group -/

/-- One invocation of a callback of `cpld_b_attrs` or `cpld_b_bin_attrs`,
with the arguments sysfs passes to it. -/
inductive Callback where
  | version_show (buf : List Char)
  | build_date_show (buf : List Char)
  | scratch_show (buf : List Char)
  | scratch_store (buf : List Char) (count : Nat)
  | getreg_show (buf : List Char)
  | getreg_store (buf : List Char) (count : Nat)
  | setreg_store (buf : List Char) (count : Nat)
  | sys_led_show (buf : List Char)
  | sys_led_store (buf : List Char) (count : Nat)
  | sys_led_color_show (buf : List Char)
  | sys_led_color_store (buf : List Char) (count : Nat)
  | reboot_cause_show (buf : List Char)
  | dump_read (buf : List Char) (off : Nat) (count : Nat)

/-- The world after a callback invocation. -/
def Callback.run : Callback → World → World
  | .version_show buf, w => (BaseboardLpc.version_show buf w).2.2
  | .build_date_show buf, w => (BaseboardLpc.build_date_show buf w).2.2
  | .scratch_show buf, w => (BaseboardLpc.scratch_show buf w).2.2
  | .scratch_store buf count, w => (BaseboardLpc.scratch_store buf count w).2
  | .getreg_show buf, w => (BaseboardLpc.getreg_show buf w).2.2
  | .getreg_store buf count, w => (BaseboardLpc.getreg_store buf count w).2
  | .setreg_store buf count, w => (BaseboardLpc.setreg_store buf count w).2
  | .sys_led_show buf, w => (BaseboardLpc.sys_led_show buf w).2.2
  | .sys_led_store buf count, w => (BaseboardLpc.sys_led_store buf count w).2
  | .sys_led_color_show buf, w => (BaseboardLpc.sys_led_color_show buf w).2.2
  | .sys_led_color_store buf count, w => (BaseboardLpc.sys_led_color_store buf count w).2
  | .reboot_cause_show buf, w => (BaseboardLpc.reboot_cause_show buf w).2.2
  | .dump_read buf off count, w => (BaseboardLpc.dump_read buf off count w).2.2

/-- The events a callback invocation performs, oldest first. -/
def Callback.events (cb : Callback) (w : World) : List Event :=
  (cb.run { w with trace := [] }).trace

/-- The driver data as `cpld_b_drv_probe` leaves it. -/
def probed (ports : Nat → Nat) : World :=
  { ports := ports, read_addr := VERSION_ADDR, trace := [] }

/-- Driver states reachable from a successful probe by callback invocations. -/
inductive Reachable : World → Prop where
  | probe (ports : Nat → Nat) : Reachable (probed ports)
  | step (cb : Callback) (w : World) : Reachable w → Reachable (cb.run w)

/-- The port an event touches, if it is a port access. -/
def Event.port? : Event → Option Nat
  | .inb port => some port
  | .outb _ port => some port
  | _ => none

/-- The I/O window declared in `cpld_b_resources`. -/
def cpld_b_resources : Nat × Nat := (0xA100, 0xA192)

/-- Membership of a port in the declared resource window. -/
def in_window (port : Nat) : Prop :=
  cpld_b_resources.1 ≤ port ∧ port ≤ cpld_b_resources.2

instance (port : Nat) : Decidable (in_window port) :=
  inferInstanceAs (Decidable (_ ∧ _))

/-- Replays a trace against the mutex.  `held` tells whether `cpld_lock` is
held; the replay fails (`none`) on a port access without the lock, on a lock
while held and on an unlock while free; otherwise it gives the final state. -/
def lock_replay : Bool → List Event → Option Bool
  | held, [] => some held
  | held, .lock :: es => if held then none else lock_replay true es
  | held, .unlock :: es => if held then lock_replay false es else none
  | held, .inb _ :: es => if held then lock_replay held es else none
  | held, .outb _ _ :: es => if held then lock_replay held es else none
  | held, .msleep _ :: es => lock_replay held es

/-- Callbacks whose port addresses are compile-time constants of the driver;
for `dump_read` the offsets sysfs passes stay inside the attribute's size. -/
def Callback.fixed_address : Callback → Prop
  | .getreg_show _ => False
  | .setreg_store _ _ => False
  | .dump_read _ off count => off + count ≤ CPLD_REGISTER_SIZE
  | _ => True

/-! ## Tables of the specification -/

/-- The names and codes of the reboot causes, as the specification lists them. -/
def reboot_cause_names : List (String × Nat) :=
  [("POR", 0x11), ("soft-warm-rst", 0x22), ("soft-cold-rst", 0x33), ("warm-rst", 0x44),
   ("cold-rst", 0x55), ("wdt-rst", 0x66), ("power-cycle", 0x77)]

/-- The names of the system LED states with the field value of each. -/
def sys_led_names : List (String × Nat) :=
  [("on", 0x00), ("off", 0x03), ("1hz", 0x01), ("4hz", 0x02)]

/-- The names `sys_led_color_store` compares its input with, and the field
value of each. -/
def sys_led_color_names : List (String × Nat) :=
  [("both", 0x00), ("green", 0x01), ("yellow", 0x02), ("off", 0x03)]

/-- The colour names of the comments on `sys_led_color_show` and
`sys_led_color_store`: both/green/yellow/none. -/
def sys_led_color_doc_names : List String := ["both", "green", "yellow", "none"]

/-- An input that spells `name`, with or without one trailing newline. -/
def spells (buf : List Char) (name : String) : Prop :=
  cstr buf = name.toList ∨ cstr buf = name.toList ++ [NL]

instance (buf : List Char) (name : String) : Decidable (spells buf name) :=
  inferInstanceAs (Decidable (_ ∨ _))

/-- The byte `sys_led_store` writes back for the byte `d` it read. -/
def led_byte (d s : Nat) : Nat := uint8_t (uint8_t (d &&& compl32 0x3) ||| s)

/-- The byte `sys_led_color_store` writes back for the byte `d` it read. -/
def led_color_byte (d s : Nat) : Nat :=
  uint8_t (uint8_t (d &&& compl32 (0x3 <<< 4)) ||| (s <<< 4))

/-- A show callback with result `r` wrote `text` and its NUL at the start of
the buffer `buf` and returned the length of `text`. -/
def shows (r : Int × List Char × World) (buf : List Char) (text : List Char) : Prop :=
  r.1 = (text.length : Int) ∧ r.2.1 = text ++ NUL :: buf.drop (text.length + 1)

instance (r : Int × List Char × World) (buf text : List Char) : Decidable (shows r buf text) :=
  inferInstanceAs (Decidable (_ ∧ _))

/-- The text `sys_led_show` prints for a value of the state field. -/
def led_text (f : Nat) : List Char :=
  if f = 0x03 then "off".toList else if f = 0x02 then "4hz".toList
  else if f = 0x01 then "1hz".toList else "on".toList

/-- The text `sys_led_color_show` prints for a value of the colour field. -/
def led_color_text (f : Nat) : List Char :=
  if f = 0x03 then "off".toList else if f = 0x02 then "yellow".toList
  else if f = 0x01 then "green".toList else "both".toList

/-- The port events of `n` rounds of the loop of `dump_read` from offset `off`. -/
def dump_events : Nat → Nat → List Event
  | 0, _ => []
  | n + 1, off =>
    Event.inb ((VERSION_ADDR + off) % 2 ^ 16) :: Event.msleep 1 :: dump_events n (off + 1)

/-- What a reader of a show attribute receives: the first `ret` characters of
the buffer, `ret` being the value the callback returned. -/
def shown (r : Int × List Char × World) : List Char := r.2.1.take r.1.toNat

/-- The number a run of decimal digits denotes. -/
def decimal_value (l : List Char) : Nat :=
  l.foldl (fun acc c => 10 * acc + (c.toNat - '0'.toNat)) 0

/-- Reads a version text `major.minor` back into the register byte
`16 * major + minor`. -/
def version_decode (t : List Char) : Nat :=
  16 * decimal_value (t.takeWhile (fun c => c ≠ '.')) +
    decimal_value (((t.dropWhile (fun c => c ≠ '.')).tail).takeWhile (fun c => c ≠ NL))

/-- The text `version_show` prints for the register byte `v`. -/
def version_text (v : Nat) : List Char :=
  (Nat.repr (v / 16)).toList ++ ['.'] ++ (Nat.repr (v % 16)).toList ++ [NL]

/-! ## Tokens and hexadecimal numbers, as the specification words them -/

/-- A hexadecimal digit: `0`-`9`, `a`-`f` or `A`-`F`. -/
def is_hex_digit (c : Char) : Bool :=
  ('0'.toNat ≤ c.toNat && c.toNat ≤ '9'.toNat) ||
  ('a'.toNat ≤ c.toNat && c.toNat ≤ 'f'.toNat) ||
  ('A'.toNat ≤ c.toNat && c.toNat ≤ 'F'.toNat)

/-- The value of a hexadecimal digit. -/
def hex_digit_value (c : Char) : Nat :=
  if '0'.toNat ≤ c.toNat ∧ c.toNat ≤ '9'.toNat then c.toNat - '0'.toNat
  else if 'a'.toNat ≤ c.toNat ∧ c.toNat ≤ 'f'.toNat then c.toNat - 'a'.toNat + 10
  else c.toNat - 'A'.toNat + 10

/-- The number a run of hexadecimal digits denotes, unbounded. -/
def hex_value (digits : List Char) : Nat :=
  digits.foldl (fun acc c => 16 * acc + hex_digit_value c) 0

/-- A token that begins with the radix mark `0x` or `0X`. -/
def has_radix_mark (tok : List Char) : Bool :=
  match tok with
  | c :: x :: _ => c = '0' && (x = 'x' || x = 'X')
  | _ => false

/-- The hexadecimal number parsed from a token: after an optional `0x`, the
number its longest run of leading hexadecimal digits denotes. -/
def hex_number (tok : List Char) : Nat :=
  hex_value ((if has_radix_mark tok then tok.drop 2 else tok).takeWhile is_hex_digit)

/-- A token whose first character is a hexadecimal digit. -/
def has_leading_hex_digit (tok : List Char) : Bool :=
  match tok with
  | c :: _ => is_hex_digit c
  | [] => false

/-- The first space-separated token of a text: what stands before its first
space. -/
def first_token (text : List Char) : List Char :=
  text.takeWhile (fun c => c ≠ ' ')

/-- The second space-separated token of a text: what stands between its first
space and the next one; there is none in a text without a space. -/
def second_token (text : List Char) : Option (List Char) :=
  match text.dropWhile (fun c => c ≠ ' ') with
  | [] => none
  | _ :: rest => some (rest.takeWhile (fun c => c ≠ ' '))

end BaseboardLpc

namespace QciPlatformIx9

/-! ## Static tables of the IX9 platform module -/

structure pca954x_platform_mode where
  adap_id : Nat
  deselect_on_exit : Nat
deriving DecidableEq

structure pca954x_platform_data where
  modes : List pca954x_platform_mode
  num_modes : Nat
deriving DecidableEq

structure pca953x_platform_data where
  gpio_base : Nat
deriving DecidableEq

/-- The `platform_data` pointer of a board info. -/
inductive PlatformData where
  | null
  | pca954x (d : pca954x_platform_data)
  | pca953x (d : pca953x_platform_data)
deriving DecidableEq

structure i2c_board_info where
  type : String
  addr : Nat
  platform_data : PlatformData
deriving DecidableEq

def MUX_INFO (bus deselect : Nat) : pca954x_platform_mode :=
  { adap_id := bus, deselect_on_exit := deselect }

def pca9546_1_modes : List pca954x_platform_mode :=
  [MUX_INFO 0x10 1, MUX_INFO 0x11 1, MUX_INFO 0x12 1, MUX_INFO 0x13 1]

def pca9546_1_data : pca954x_platform_data :=
  { modes := pca9546_1_modes, num_modes := 4 }

def pca9548_1_modes : List pca954x_platform_mode :=
  [MUX_INFO 0x14 1, MUX_INFO 0x15 1, MUX_INFO 0x16 1, MUX_INFO 0x17 1]

def pca9548_1_data : pca954x_platform_data :=
  { modes := pca9548_1_modes, num_modes := 4 }

def pca9548sfp1_modes : List pca954x_platform_mode :=
  [MUX_INFO 0x20 1, MUX_INFO 0x21 1, MUX_INFO 0x22 1, MUX_INFO 0x23 1,
   MUX_INFO 0x24 1, MUX_INFO 0x25 1, MUX_INFO 0x26 1, MUX_INFO 0x27 1]

def pca9548sfp1_data : pca954x_platform_data :=
  { modes := pca9548sfp1_modes, num_modes := 8 }

def pca9548sfp2_modes : List pca954x_platform_mode :=
  [MUX_INFO 0x28 1, MUX_INFO 0x29 1, MUX_INFO 0x2a 1, MUX_INFO 0x2b 1,
   MUX_INFO 0x2c 1, MUX_INFO 0x2d 1, MUX_INFO 0x2e 1, MUX_INFO 0x2f 1]

def pca9548sfp2_data : pca954x_platform_data :=
  { modes := pca9548sfp2_modes, num_modes := 8 }

def pca9548sfp3_modes : List pca954x_platform_mode :=
  [MUX_INFO 0x30 1, MUX_INFO 0x31 1, MUX_INFO 0x32 1, MUX_INFO 0x33 1,
   MUX_INFO 0x34 1, MUX_INFO 0x35 1, MUX_INFO 0x36 1, MUX_INFO 0x37 1]

def pca9548sfp3_data : pca954x_platform_data :=
  { modes := pca9548sfp3_modes, num_modes := 8 }

def pca9548sfp4_modes : List pca954x_platform_mode :=
  [MUX_INFO 0x38 1, MUX_INFO 0x39 1, MUX_INFO 0x3a 1, MUX_INFO 0x3b 1,
   MUX_INFO 0x3c 1, MUX_INFO 0x3d 1, MUX_INFO 0x3e 1, MUX_INFO 0x3f 1]

def pca9548sfp4_data : pca954x_platform_data :=
  { modes := pca9548sfp4_modes, num_modes := 8 }

def tca9539_1_data : pca953x_platform_data := { gpio_base := 0x10 }

/-- CPU Linking Board at CPU's I2C Bus. -/
def pca9555_CPU_data : pca953x_platform_data := { gpio_base := 0x20 }

def I2C_BOARD_INFO (dev_type : String) (dev_addr : Nat) (pd : PlatformData) :
    i2c_board_info :=
  { type := dev_type, addr := dev_addr, platform_data := pd }

def ix9_i2c_devices : List i2c_board_info :=
  [ I2C_BOARD_INFO "pca9546" 0x72 (.pca954x pca9546_1_data),      -- 0 pca9546_1
    I2C_BOARD_INFO "pca9548" 0x77 (.pca954x pca9548_1_data),      -- 1 pca9548_1
    I2C_BOARD_INFO "tca9539" 0x74 (.pca953x tca9539_1_data),      -- 2
    I2C_BOARD_INFO "24c02" 0x54 .null,                            -- 3
    I2C_BOARD_INFO "pca9548" 0x73 (.pca954x pca9548sfp1_data),    -- 4
    I2C_BOARD_INFO "pca9548" 0x73 (.pca954x pca9548sfp2_data),    -- 5
    I2C_BOARD_INFO "pca9548" 0x73 (.pca954x pca9548sfp3_data),    -- 6
    I2C_BOARD_INFO "pca9548" 0x73 (.pca954x pca9548sfp4_data),    -- 7
    I2C_BOARD_INFO "CPLD-QSFPDD" 0x38 .null,                      -- 8
    I2C_BOARD_INFO "CPLDLED_IX9" 0x39 .null,                      -- 9
    I2C_BOARD_INFO "optoe1" 0x50 .null,                           -- 10
    I2C_BOARD_INFO "pca9555" 0x22 (.pca953x pca9555_CPU_data) ]   -- 11

/-- The six mux tables of the module. -/
def mux_tables : List pca954x_platform_data :=
  [pca9546_1_data, pca9548_1_data, pca9548sfp1_data, pca9548sfp2_data,
   pca9548sfp3_data, pca9548sfp4_data]

/-! ## Module initialisation -/

/-- Calls into the platform and I2C cores made by `ix9_platform_init`.  The
adapter of `i2c_new_device` and `i2c_put_adapter` is named by the id it was
fetched with; the board info by its index in `ix9_i2c_devices`. -/
inductive Call where
  | platform_driver_register
  | platform_device_alloc
  | platform_device_add
  | platform_device_put
  | platform_driver_unregister
  | i2c_get_adapter (id : Nat)
  | i2c_new_device (adapter : Nat) (index : Nat)
  | i2c_put_adapter (adapter : Nat)
deriving DecidableEq

/-- The errno value `ENOMEM` of the kernel headers. -/
def ENOMEM : Int := 12

/-- The body of the loop `for (i = 0x20; i < 0x40; i++)`. -/
def sfp_loop_body (i : Nat) : List Call :=
  [.i2c_get_adapter i, .i2c_new_device i 10, .i2c_put_adapter i]

/-- The loop `for (i = from; i < 0x40; i++)`, with `n` iterations left. -/
def sfp_loop : Nat → Nat → List Call
  | 0, _ => []
  | n + 1, i => if i < 0x40 then sfp_loop_body i ++ sfp_loop n (i + 1) else []

/-- Module initialisation.  The arguments are what the platform core answers:
the return value of `platform_driver_register`, whether
`platform_device_alloc` gave a device, and the return value of
`platform_device_add`.  The result is the return value and the calls made. -/
def ix9_platform_init (reg_ret : Int) (alloc_ok : Bool) (add_ret : Int) :
    Int × List Call :=
  if reg_ret < 0 then (reg_ret, [.platform_driver_register])
  else if !alloc_ok then
    (-ENOMEM, [.platform_driver_register, .platform_device_alloc,
           .platform_driver_unregister])
  else if add_ret ≠ 0 then
    (add_ret, [.platform_driver_register, .platform_device_alloc,
               .platform_device_add, .platform_device_put,
               .platform_driver_unregister])
  else
    (0,
     [.platform_driver_register, .platform_device_alloc, .platform_device_add,
      .i2c_get_adapter 0,
      .i2c_new_device 0 0, .i2c_new_device 0 1, .i2c_new_device 0 11,
      .i2c_put_adapter 0,
      .i2c_get_adapter 0x10,
      .i2c_new_device 0x10 8, .i2c_new_device 0x10 9,
      .i2c_put_adapter 0x10,
      .i2c_get_adapter 0x11,
      .i2c_new_device 0x11 8, .i2c_new_device 0x11 9,
      .i2c_put_adapter 0x11,
      .i2c_get_adapter 0x12, .i2c_new_device 0x12 3, .i2c_put_adapter 0x12,
      .i2c_get_adapter 0x13, .i2c_new_device 0x13 2, .i2c_put_adapter 0x13,
      .i2c_get_adapter 0x14, .i2c_new_device 0x14 4, .i2c_put_adapter 0x14,
      .i2c_get_adapter 0x15, .i2c_new_device 0x15 5, .i2c_put_adapter 0x15,
      .i2c_get_adapter 0x16, .i2c_new_device 0x16 6, .i2c_put_adapter 0x16,
      .i2c_get_adapter 0x17, .i2c_new_device 0x17 7, .i2c_put_adapter 0x17]
     ++ sfp_loop (0x40 - 0x20) 0x20)

/-- The registrations among a list of calls: adapter id and board info. -/
def registrations : List Call → List (Nat × i2c_board_info)
  | [] => []
  | .i2c_new_device a k :: cs =>
    match ix9_i2c_devices[k]? with
    | some info => (a, info) :: registrations cs
    | none => registrations cs
  | _ :: cs => registrations cs

/-- Channel adapter ids of a board info: those of its mux table, if any. -/
def channels (info : i2c_board_info) : List Nat :=
  match info.platform_data with
  | .pca954x d => d.modes.map (fun m => m.adap_id)
  | _ => []

/-- Replays a registration sequence from the adapters known so far: a
registration needs its adapter known, and a mux makes its channels known. -/
def topology_replay : List Nat → List (Nat × i2c_board_info) → Bool
  | _, [] => true
  | known, (a, info) :: rest =>
    known.contains a && topology_replay (known ++ channels info) rest

/-- The board info of the per-port transceiver EEPROM, `ix9_i2c_devices[10]`. -/
def optoe1 : i2c_board_info := I2C_BOARD_INFO "optoe1" 0x50 .null

/-- The channel adapter ids of the four tables `pca9548sfp1_modes` ..
`pca9548sfp4_modes`, table after table. -/
def sfp_channels : List Nat :=
  (pca9548sfp1_modes ++ pca9548sfp2_modes ++ pca9548sfp3_modes ++ pca9548sfp4_modes).map
    (fun m => m.adap_id)

/-- Checks call `k` of a sequence: if it fetches an adapter other than 0, a
mux registered before it lists that adapter among its channels. -/
def parent_registered (calls : List Call) (k : Nat) : Bool :=
  match calls[k]? with
  | some (.i2c_get_adapter a) =>
    a == 0 || (registrations (calls.take k)).any (fun r => (channels r.2).contains a)
  | _ => true

end QciPlatformIx9

/-! # Theorems -/

namespace BaseboardLpc

/-! ## Helper lemmas: what each callback leaves behind -/

theorem reboot_cause_show_eq (buf : List Char) (w : World) :
    reboot_cause_show buf w =
      ((reboot_cause_scan (w.ports REBOOT_CAUSE % 2 ^ 8) buf reboot_causes).1,
       (reboot_cause_scan (w.ports REBOOT_CAUSE % 2 ^ 8) buf reboot_causes).2,
       { w with trace := w.trace ++ [Event.lock, Event.inb REBOOT_CAUSE, Event.unlock] }) := by
  simp [reboot_cause_show, mutex_lock, mutex_unlock, inb, REBOOT_CAUSE]

/-! ## Helper lemmas: `sysfs_streq` against a driver name -/

theorem peek_eq_NUL_iff (s : List Char) : peek s = NUL ↔ cstr s = [] := by
  cases s with
  | nil => simp [peek, cstr]
  | cons c cs =>
    by_cases h : c = NUL <;> simp [peek, cstr, h]

theorem NL_ne_NUL : NL ≠ NUL := by decide

/-- Against a name free of NUL and newline, `sysfs_streq` accepts exactly the
name and the name followed by one newline. -/
theorem sysfs_streq_name (name : List Char) (h0 : NUL ∉ name) (h1 : NL ∉ name)
    (buf : List Char) :
    sysfs_streq buf name = true ↔ (cstr buf = name ∨ cstr buf = name ++ [NL]) := by
  induction name generalizing buf with
  | nil =>
    cases buf with
    | nil => simp [sysfs_streq, peek, cstr]
    | cons c s1 =>
      by_cases hc : c = NUL
      · simp [sysfs_streq, peek, cstr, hc]
      · by_cases hn : c = NL
        · subst hn
          have := peek_eq_NUL_iff s1
          simp [sysfs_streq, cstr, hc, peek]
          simpa [peek] using this
        · simp [sysfs_streq, peek, cstr, hc, hn]
  | cons d name ih =>
    have hd0 : d ≠ NUL := fun h => h0 (by simp [h])
    have hd1 : d ≠ NL := fun h => h1 (by simp [h])
    have h0' : NUL ∉ name := fun h => h0 (List.mem_cons_of_mem _ h)
    have h1' : NL ∉ name := fun h => h1 (List.mem_cons_of_mem _ h)
    cases buf with
    | nil =>
      simp [sysfs_streq, peek, cstr, hd0, hd1, Ne.symm hd0]
    | cons c s1 =>
      by_cases hc : c = d
      · subst hc
        simp [sysfs_streq, peek, cstr, hd0, ih h0' h1' s1]
      · by_cases hc0 : c = NUL
        · simp [sysfs_streq, peek, cstr, hc, hc0, hd0, hd1, Ne.symm hd0]
        · simp [sysfs_streq, peek, cstr, hc, hc0, hd0, hd1]

theorem sys_led_status_eq (buf : List Char) :
    sys_led_status buf =
      if spells buf "off" then some 0x03 else if spells buf "4hz" then some 0x02
      else if spells buf "1hz" then some 0x01 else if spells buf "on" then some 0x00
      else none := by
  have h (name : String) (h0 : NUL ∉ name.toList) (h1 : NL ∉ name.toList) :
      (sysfs_streq buf name.toList = true) = spells buf name :=
    propext (sysfs_streq_name name.toList h0 h1 buf)
  simp only [sys_led_status, h "off" (by decide) (by decide), h "4hz" (by decide) (by decide),
    h "1hz" (by decide) (by decide), h "on" (by decide) (by decide)]

theorem sys_led_color_status_eq (buf : List Char) :
    sys_led_color_status buf =
      if spells buf "off" then some 0x03 else if spells buf "yellow" then some 0x02
      else if spells buf "green" then some 0x01 else if spells buf "both" then some 0x00
      else none := by
  have h (name : String) (h0 : NUL ∉ name.toList) (h1 : NL ∉ name.toList) :
      (sysfs_streq buf name.toList = true) = spells buf name :=
    propext (sysfs_streq_name name.toList h0 h1 buf)
  simp only [sys_led_color_status, h "off" (by decide) (by decide),
    h "yellow" (by decide) (by decide), h "green" (by decide) (by decide),
    h "both" (by decide) (by decide)]

/-! ## Helper lemmas: the two fields of the LED byte -/

set_option maxRecDepth 1000000 in
theorem led_byte_facts : ∀ d : Fin 256, ∀ s : Fin 4,
    led_byte d.val s.val &&& 0x3 = s.val ∧ led_byte d.val s.val &&& 0xFC = d.val &&& 0xFC ∧
    (led_byte d.val s.val >>> 4) &&& 0x3 = (d.val >>> 4) &&& 0x3 := by
  decide

set_option maxRecDepth 1000000 in
theorem led_color_byte_facts : ∀ d : Fin 256, ∀ s : Fin 4,
    (led_color_byte d.val s.val >>> 4) &&& 0x3 = s.val ∧
    led_color_byte d.val s.val &&& 0xCF = d.val &&& 0xCF ∧
    led_color_byte d.val s.val &&& 0x3 = d.val &&& 0x3 := by
  decide

theorem led_byte_nat (d s : Nat) (hs : s < 4) :
    led_byte (d % 2 ^ 8) s % 2 ^ 8 = led_byte (d % 2 ^ 8) s ∧
    led_byte (d % 2 ^ 8) s &&& 0x3 = s ∧
    led_byte (d % 2 ^ 8) s &&& 0xFC = (d % 2 ^ 8) &&& 0xFC ∧
    (led_byte (d % 2 ^ 8) s >>> 4) &&& 0x3 = ((d % 2 ^ 8) >>> 4) &&& 0x3 := by
  have hd : d % 2 ^ 8 < 256 := Nat.mod_lt _ (by norm_num)
  have h := led_byte_facts ⟨d % 2 ^ 8, hd⟩ ⟨s, hs⟩
  refine ⟨?_, h.1, h.2.1, h.2.2⟩
  simp [led_byte, uint8_t]

theorem led_color_byte_nat (d s : Nat) (hs : s < 4) :
    led_color_byte (d % 2 ^ 8) s % 2 ^ 8 = led_color_byte (d % 2 ^ 8) s ∧
    (led_color_byte (d % 2 ^ 8) s >>> 4) &&& 0x3 = s ∧
    led_color_byte (d % 2 ^ 8) s &&& 0xCF = (d % 2 ^ 8) &&& 0xCF ∧
    led_color_byte (d % 2 ^ 8) s &&& 0x3 = (d % 2 ^ 8) &&& 0x3 := by
  have hd : d % 2 ^ 8 < 256 := Nat.mod_lt _ (by norm_num)
  have h := led_color_byte_facts ⟨d % 2 ^ 8, hd⟩ ⟨s, hs⟩
  refine ⟨?_, h.1, h.2.1, h.2.2⟩
  simp [led_color_byte, uint8_t]

/-! ## Helper lemmas: closed forms of the LED callbacks -/

theorem sys_led_show_eq (buf : List Char) (w : World) :
    sys_led_show buf w =
      ((sprintf buf (led_text (((w.ports SYS_LED_ADDR % 2 ^ 8) &&& 0x3) % 2 ^ 8) ++ [NL])).1,
       (sprintf buf (led_text (((w.ports SYS_LED_ADDR % 2 ^ 8) &&& 0x3) % 2 ^ 8) ++ [NL])).2,
       { w with trace := w.trace ++ [Event.lock, Event.inb SYS_LED_ADDR, Event.unlock] }) := by
  simp [sys_led_show, led_text, mutex_lock, mutex_unlock, inb, SYS_LED_ADDR, uint8_t]

theorem sys_led_color_show_eq (buf : List Char) (w : World) :
    sys_led_color_show buf w =
      ((sprintf buf
          (led_color_text ((((w.ports SYS_LED_ADDR % 2 ^ 8) >>> 4) &&& 0x3) % 2 ^ 8) ++ [NL])).1,
       (sprintf buf
          (led_color_text ((((w.ports SYS_LED_ADDR % 2 ^ 8) >>> 4) &&& 0x3) % 2 ^ 8) ++ [NL])).2,
       { w with trace := w.trace ++ [Event.lock, Event.inb SYS_LED_ADDR, Event.unlock] }) := by
  simp [sys_led_color_show, led_color_text, mutex_lock, mutex_unlock, inb, SYS_LED_ADDR, uint8_t]

theorem sys_led_store_eq (buf : List Char) (count : Nat) (w : World) :
    sys_led_store buf count w =
      match sys_led_status buf with
      | none => (-22, w)
      | some s =>
        (ssize_t count,
         { ports := fun p => if p = SYS_LED_ADDR
              then led_byte (w.ports SYS_LED_ADDR % 2 ^ 8) s else w.ports p
           read_addr := w.read_addr
           trace := w.trace ++ [Event.lock, Event.inb SYS_LED_ADDR,
              Event.outb (led_byte (w.ports SYS_LED_ADDR % 2 ^ 8) s) SYS_LED_ADDR,
              Event.unlock] }) := by
  unfold sys_led_store
  cases sys_led_status buf with
  | none => simp [size_t, ssize_t, EINVAL]
  | some s =>
    simp [mutex_lock, mutex_unlock, inb, outb, SYS_LED_ADDR, led_byte, uint8_t]

theorem sys_led_color_store_eq (buf : List Char) (count : Nat) (w : World) :
    sys_led_color_store buf count w =
      match sys_led_color_status buf with
      | none => (-22, w)
      | some s =>
        (ssize_t count,
         { ports := fun p => if p = SYS_LED_ADDR
              then led_color_byte (w.ports SYS_LED_ADDR % 2 ^ 8) s else w.ports p
           read_addr := w.read_addr
           trace := w.trace ++ [Event.lock, Event.inb SYS_LED_ADDR,
              Event.outb (led_color_byte (w.ports SYS_LED_ADDR % 2 ^ 8) s) SYS_LED_ADDR,
              Event.unlock] }) := by
  unfold sys_led_color_store
  cases sys_led_color_status buf with
  | none => simp [size_t, ssize_t, EINVAL]
  | some s =>
    simp [mutex_lock, mutex_unlock, inb, outb, SYS_LED_ADDR, led_color_byte, uint8_t]

/-! ## Helper lemmas: which inputs the stores accept -/

theorem ssize_t_of_lt (count : Nat) (h : count < 2 ^ 63) : ssize_t count = (count : Int) := by
  have h1 : count % 2 ^ 64 = count := Nat.mod_eq_of_lt (by omega)
  simp only [ssize_t, h1]
  rw [if_pos h]

theorem sys_led_status_of_spells (input : List Char) (name : String) (k : Nat)
    (hmem : (name, k) ∈ sys_led_names) (hs : spells input name) :
    sys_led_status input = some k := by
  rw [sys_led_status_eq]
  simp only [sys_led_names, List.mem_cons, Prod.mk.injEq, List.mem_singleton,
    List.not_mem_nil, or_false] at hmem
  rcases hmem with h | h | h | h <;> obtain ⟨rfl, rfl⟩ := h <;>
    rcases hs with hs | hs <;> simp [spells, hs, NL]

theorem sys_led_color_status_of_spells (input : List Char) (name : String) (k : Nat)
    (hmem : (name, k) ∈ sys_led_color_names) (hs : spells input name) :
    sys_led_color_status input = some k := by
  rw [sys_led_color_status_eq]
  simp only [sys_led_color_names, List.mem_cons, Prod.mk.injEq, List.mem_singleton,
    List.not_mem_nil, or_false] at hmem
  rcases hmem with h | h | h | h <;> obtain ⟨rfl, rfl⟩ := h <;>
    rcases hs with hs | hs <;> simp [spells, hs, NL]

theorem sys_led_status_none (input : List Char)
    (h : ∀ name ∈ ["on", "off", "1hz", "4hz"], ¬ spells input name) :
    sys_led_status input = none := by
  rw [sys_led_status_eq]
  simp [h "on" (by simp), h "off" (by simp), h "1hz" (by simp), h "4hz" (by simp)]

theorem sys_led_color_status_none (input : List Char)
    (h : ∀ name ∈ ["both", "green", "yellow", "off"], ¬ spells input name) :
    sys_led_color_status input = none := by
  rw [sys_led_color_status_eq]
  simp [h "both" (by simp), h "green" (by simp), h "yellow" (by simp), h "off" (by simp)]

theorem sys_led_status_lt (input : List Char) (k : Nat) (h : sys_led_status input = some k) :
    k < 4 := by
  unfold sys_led_status at h
  split_ifs at h <;> simp at h <;> omega

theorem sys_led_color_status_lt (input : List Char) (k : Nat)
    (h : sys_led_color_status input = some k) : k < 4 := by
  unfold sys_led_color_status at h
  split_ifs at h <;> simp at h <;> omega

/-- C1: `reboot_cause_show` maps the byte `r` read from `REBOOT_CAUSE` to its
reason string.  If `r` is the code of one of the seven listed causes, the
buffer receives the name followed by a newline (and the terminating NUL) and
the return value is the length of that text; for every other byte the function
returns 0 and leaves the buffer as it was.  No byte matches two table entries. -/
theorem reboot_cause_show_spec (buf : List Char) (w : World) (r : Nat)
    (hr : w.ports REBOOT_CAUSE % 2 ^ 8 = r) :
    (∀ name code, (name, code) ∈ reboot_cause_names → r = code →
        (reboot_cause_show buf w).1 = ((name.toList ++ [NL]).length : Int) ∧
        (reboot_cause_show buf w).2.1 =
          name.toList ++ [NL] ++ NUL :: buf.drop ((name.toList ++ [NL]).length + 1)) ∧
    (r ∉ [0x11, 0x22, 0x33, 0x44, 0x55, 0x66, 0x77] →
        (reboot_cause_show buf w).1 = 0 ∧ (reboot_cause_show buf w).2.1 = buf) ∧
    (∀ code, (reboot_causes.map (fun e => e.reset_code)).count code ≤ 1) ∧
    reboot_causes.map (fun e => (String.mk e.reason, e.reset_code)) = reboot_cause_names := by
  rw [reboot_cause_show_eq, hr]
  refine ⟨?_, ?_, ?_, ?_⟩
  · intro name code hmem hcode
    subst hcode
    simp only [reboot_cause_names, List.mem_cons, Prod.mk.injEq, List.mem_singleton,
      List.not_mem_nil, or_false] at hmem
    rcases hmem with h | h | h | h | h | h | h <;> obtain ⟨rfl, rfl⟩ := h <;>
      simp [reboot_cause_scan, reboot_causes, uint8_t, sprintf]
  · intro hnot
    simp only [List.mem_cons, List.mem_singleton, List.not_mem_nil, or_false, not_or] at hnot
    obtain ⟨h1, h2, h3, h4, h5, h6, h7⟩ := hnot
    have hlt : r < 256 := by rw [← hr]; exact Nat.mod_lt _ (by norm_num)
    have hm : r % 256 = r := Nat.mod_eq_of_lt hlt
    simp [reboot_cause_scan, reboot_causes, uint8_t, hm, h1, h2, h3, h4, h5, h6, h7]
  · intro code
    have hnd : (reboot_causes.map (fun e => e.reset_code)).Nodup := by decide
    exact List.nodup_iff_count_le_one.mp hnd code
  · decide

/-- Witness for C1: a register holding `0x44` reads as `warm-rst`. -/
theorem reboot_cause_show_spec_witness :
    (reboot_cause_show [] ⟨fun _ => 0x44, 0, []⟩).1 = 9 ∧
    (reboot_cause_show [] ⟨fun _ => 0x44, 0, []⟩).2.1 = "warm-rst".toList ++ [NL] ++ [NUL] := by
  have h := (reboot_cause_show_spec [] ⟨fun _ => 0x44, 0, []⟩ 0x44 (by decide)).1
    "warm-rst" 0x44 (by decide) rfl
  simpa using h

/-- C2: store/show round trip on the system LED register.  For every initial
world, every `count` below `2 ^ 63` and every input spelling a name (with or
without one trailing newline): for the names on / off / 1hz / 4hz,
`sys_led_store` returns `count` and a following `sys_led_show` writes the name
followed by a newline; likewise `sys_led_color_store` and `sys_led_color_show`
for the names the colour store accepts. -/
theorem led_store_show_round_trip (w : World) (count : Nat) (hcount : count < 2 ^ 63)
    (input buf : List Char) (name : String) (hs : spells input name) :
    (name ∈ ["on", "off", "1hz", "4hz"] →
      (sys_led_store input count w).1 = (count : Int) ∧
      shows (sys_led_show buf (sys_led_store input count w).2) buf (name.toList ++ [NL])) ∧
    (name ∈ sys_led_color_names.map Prod.fst →
      (sys_led_color_store input count w).1 = (count : Int) ∧
      shows (sys_led_color_show buf (sys_led_color_store input count w).2) buf
        (name.toList ++ [NL])) := by
  constructor
  · intro hmem
    have hk : ∃ k, (name, k) ∈ sys_led_names ∧ led_text k = name.toList := by
      simp only [List.mem_cons, List.mem_singleton, List.not_mem_nil, or_false] at hmem
      rcases hmem with rfl | rfl | rfl | rfl
      · exact ⟨0, by decide, by decide⟩
      · exact ⟨3, by decide, by decide⟩
      · exact ⟨1, by decide, by decide⟩
      · exact ⟨2, by decide, by decide⟩
    obtain ⟨k, hk, htext⟩ := hk
    have hst := sys_led_status_of_spells input name k hk hs
    have hlt := sys_led_status_lt input k hst
    have hb := led_byte_nat (w.ports SYS_LED_ADDR) k hlt
    have hk8 : k % 2 ^ 8 = k := Nat.mod_eq_of_lt (by omega)
    rw [sys_led_store_eq, hst, sys_led_show_eq]
    simp only [if_true, hb.1, hb.2.1, hk8, htext, ssize_t_of_lt count hcount, shows, sprintf,
      true_and]
  · intro hmem
    have hk : ∃ k, (name, k) ∈ sys_led_color_names ∧ led_color_text k = name.toList := by
      simp only [sys_led_color_names, List.map, List.mem_cons, List.mem_singleton,
        List.not_mem_nil, or_false] at hmem
      rcases hmem with rfl | rfl | rfl | rfl
      · exact ⟨0, by decide, by decide⟩
      · exact ⟨1, by decide, by decide⟩
      · exact ⟨2, by decide, by decide⟩
      · exact ⟨3, by decide, by decide⟩
    obtain ⟨k, hk, htext⟩ := hk
    have hst := sys_led_color_status_of_spells input name k hk hs
    have hlt := sys_led_color_status_lt input k hst
    have hb := led_color_byte_nat (w.ports SYS_LED_ADDR) k hlt
    have hk8 : k % 2 ^ 8 = k := Nat.mod_eq_of_lt (by omega)
    rw [sys_led_color_store_eq, hst, sys_led_color_show_eq]
    simp only [if_true, hb.1, hb.2.1, hk8, htext, ssize_t_of_lt count hcount, shows, sprintf,
      true_and]

/-- Witness for C2: storing `4hz` with a newline over a register holding
`0xFF` and showing it again prints `4hz`. -/
theorem led_store_show_round_trip_witness :
    (sys_led_store ("4hz".toList ++ [NL]) 4 ⟨fun _ => 0xFF, 0, []⟩).1 = 4 ∧
    shows (sys_led_show [] (sys_led_store ("4hz".toList ++ [NL]) 4 ⟨fun _ => 0xFF, 0, []⟩).2)
      [] ("4hz".toList ++ [NL]) :=
  (led_store_show_round_trip ⟨fun _ => 0xFF, 0, []⟩ 4 (by norm_num) ("4hz".toList ++ [NL]) []
    "4hz" (Or.inr (by decide))).1 (by decide)

/-- C3: the two LED fields are packed independently in the `SYS_LED` byte.
For every world and every input, `sys_led_store` leaves every other port as it
was, every byte it writes goes to `SYS_LED_ADDR` and agrees with the byte read
on bits 2-7, and what `sys_led_color_show` reports is unchanged;
`sys_led_color_store` likewise writes only to `SYS_LED_ADDR`, agrees with the
byte read on bits 0-3 and 6-7, and leaves what `sys_led_show` reports
unchanged. -/
theorem led_fields_independent (w : World) (input buf : List Char) (count : Nat) :
    ((∀ p, p ≠ SYS_LED_ADDR → (sys_led_store input count w).2.ports p = w.ports p) ∧
     ((sys_led_store input count w).2.ports SYS_LED_ADDR % 2 ^ 8) &&& 0xFC =
        (w.ports SYS_LED_ADDR % 2 ^ 8) &&& 0xFC ∧
     (∀ v p, Event.outb v p ∈ (sys_led_store input count w).2.trace.drop w.trace.length →
        p = SYS_LED_ADDR ∧ v &&& 0xFC = (w.ports SYS_LED_ADDR % 2 ^ 8) &&& 0xFC) ∧
     (sys_led_color_show buf (sys_led_store input count w).2).1 = (sys_led_color_show buf w).1 ∧
     (sys_led_color_show buf (sys_led_store input count w).2).2.1 =
        (sys_led_color_show buf w).2.1) ∧
    ((∀ p, p ≠ SYS_LED_ADDR → (sys_led_color_store input count w).2.ports p = w.ports p) ∧
     ((sys_led_color_store input count w).2.ports SYS_LED_ADDR % 2 ^ 8) &&& 0xCF =
        (w.ports SYS_LED_ADDR % 2 ^ 8) &&& 0xCF ∧
     (∀ v p, Event.outb v p ∈ (sys_led_color_store input count w).2.trace.drop w.trace.length →
        p = SYS_LED_ADDR ∧ v &&& 0xCF = (w.ports SYS_LED_ADDR % 2 ^ 8) &&& 0xCF) ∧
     (sys_led_show buf (sys_led_color_store input count w).2).1 = (sys_led_show buf w).1 ∧
     (sys_led_show buf (sys_led_color_store input count w).2).2.1 = (sys_led_show buf w).2.1) := by
  constructor
  · rw [sys_led_store_eq]
    cases hst : sys_led_status input with
    | none => simp
    | some k =>
      have hb := led_byte_nat (w.ports SYS_LED_ADDR) k (sys_led_status_lt input k hst)
      simp only [sys_led_color_show_eq, if_true, hb.1, hb.2.2.1, hb.2.2.2, List.drop_left,
        true_and, and_true]
      refine ⟨fun p hp => by simp [hp], ?_⟩
      intro v p hmem
      simp only [List.mem_cons, List.mem_singleton, List.not_mem_nil, or_false, reduceCtorEq,
        false_or, Event.outb.injEq] at hmem
      obtain ⟨rfl, rfl⟩ := hmem
      exact ⟨rfl, hb.2.2.1⟩
  · rw [sys_led_color_store_eq]
    cases hst : sys_led_color_status input with
    | none => simp
    | some k =>
      have hb := led_color_byte_nat (w.ports SYS_LED_ADDR) k (sys_led_color_status_lt input k hst)
      simp only [sys_led_show_eq, if_true, hb.1, hb.2.2.1, hb.2.2.2, List.drop_left,
        true_and, and_true]
      refine ⟨fun p hp => by simp [hp], ?_⟩
      intro v p hmem
      simp only [List.mem_cons, List.mem_singleton, List.not_mem_nil, or_false, reduceCtorEq,
        false_or, Event.outb.injEq] at hmem
      obtain ⟨rfl, rfl⟩ := hmem
      exact ⟨rfl, hb.2.2.1⟩

/-- Witness for C3: storing `on` over a register holding `0xFF` writes `0xFC`,
which has bits 2-7 of `0xFF`. -/
theorem led_fields_independent_witness :
    (sys_led_store "on".toList 2 ⟨fun _ => 0xFF, 0, []⟩).2.ports SYS_LED_ADDR = 0xFC ∧
    (0xFC % 2 ^ 8) &&& 0xFC = (0xFF % 2 ^ 8) &&& 0xFC := by
  have h := (led_fields_independent ⟨fun _ => 0xFF, 0, []⟩ "on".toList [] 2).1.2.1
  refine ⟨by decide, ?_⟩
  have e : (sys_led_store "on".toList 2 ⟨fun _ => 0xFF, 0, []⟩).2.ports SYS_LED_ADDR = 0xFC := by
    decide
  rw [e] at h
  exact h

/-- C4: `sys_led_store` and `sys_led_color_store` reject unknown names
atomically.  An input that spells none of the attribute's four names (one
trailing newline ignored, as `sysfs_streq` does) gives `-EINVAL` and leaves the
world as it was: no event is added to the trace, so no port is read or
written, and every port keeps its value.  An input that spells one of the four
names gives `count` (for `count` below `2 ^ 63`). -/
theorem led_store_rejects_unknown (w : World) (input : List Char) (count : Nat) :
    ((∀ name ∈ ["on", "off", "1hz", "4hz"], ¬ spells input name) →
        sys_led_store input count w = (-(EINVAL : Int), w)) ∧
    (∀ name ∈ ["on", "off", "1hz", "4hz"], spells input name → count < 2 ^ 63 →
        (sys_led_store input count w).1 = (count : Int)) ∧
    ((∀ name ∈ sys_led_color_names.map Prod.fst, ¬ spells input name) →
        sys_led_color_store input count w = (-(EINVAL : Int), w)) ∧
    (∀ name ∈ sys_led_color_names.map Prod.fst, spells input name → count < 2 ^ 63 →
        (sys_led_color_store input count w).1 = (count : Int)) := by
  refine ⟨?_, ?_, ?_, ?_⟩
  · intro h
    rw [sys_led_store_eq, sys_led_status_none input h]
    rfl
  · intro name hmem hs hcount
    have hk : ∃ k, (name, k) ∈ sys_led_names := by
      simp only [List.mem_cons, List.mem_singleton, List.not_mem_nil, or_false] at hmem
      rcases hmem with rfl | rfl | rfl | rfl
      · exact ⟨0, by decide⟩
      · exact ⟨3, by decide⟩
      · exact ⟨1, by decide⟩
      · exact ⟨2, by decide⟩
    obtain ⟨k, hk⟩ := hk
    rw [sys_led_store_eq, sys_led_status_of_spells input name k hk hs]
    exact ssize_t_of_lt count hcount
  · intro h
    rw [sys_led_color_store_eq, sys_led_color_status_none input h]
    rfl
  · intro name hmem hs hcount
    have hk : ∃ k, (name, k) ∈ sys_led_color_names := by
      simp only [sys_led_color_names, List.map, List.mem_cons, List.mem_singleton,
        List.not_mem_nil, or_false] at hmem
      rcases hmem with rfl | rfl | rfl | rfl
      · exact ⟨0, by decide⟩
      · exact ⟨1, by decide⟩
      · exact ⟨2, by decide⟩
      · exact ⟨3, by decide⟩
    obtain ⟨k, hk⟩ := hk
    rw [sys_led_color_store_eq, sys_led_color_status_of_spells input name k hk hs]
    exact ssize_t_of_lt count hcount

/-- Witness for C4: `blue` is none of on / off / 1hz / 4hz and is rejected
with the world untouched. -/
theorem led_store_rejects_unknown_witness :
    sys_led_store "blue".toList 4 ⟨fun _ => 0x12, 0, []⟩ =
      (-(EINVAL : Int), ⟨fun _ => 0x12, 0, []⟩) :=
  (led_store_rejects_unknown ⟨fun _ => 0x12, 0, []⟩ "blue".toList 4).1 (by decide)

/-- C5 (the code at the failing inputs): with bits 4-5 of the register both
set `sys_led_color_show` prints `off`, which is not among both / green /
yellow / none, and `sys_led_color_store` rejects the name `none` with
`-EINVAL`, leaving the register as it was. -/
theorem sys_led_color_off_not_none :
    shows (sys_led_color_show [] ⟨fun _ => 0x30, 0, []⟩) [] ("off".toList ++ [NL]) ∧
    String.mk ((sys_led_color_show [] ⟨fun _ => 0x30, 0, []⟩).2.1.take 3)
      ∉ sys_led_color_doc_names ∧
    (sys_led_color_store "none".toList 4 ⟨fun _ => 0x00, 0, []⟩).1 = -(EINVAL : Int) ∧
    (sys_led_color_store "none".toList 4 ⟨fun _ => 0x00, 0, []⟩).2.trace = [] := by
  refine ⟨?_, ?_, ?_, ?_⟩
  · rw [sys_led_color_show_eq]; decide
  · rw [sys_led_color_show_eq]; decide
  · rw [sys_led_color_store_eq]; decide
  · rw [sys_led_color_store_eq]; decide

/-! ## Helper lemmas: the events of each callback -/

theorem events_version_show (buf : List Char) (w : World) :
    (Callback.version_show buf).events w =
      [Event.lock, Event.inb VERSION_ADDR, Event.unlock] := by
  simp [Callback.events, Callback.run, version_show, mutex_lock, mutex_unlock, inb, VERSION_ADDR]

theorem events_build_date_show (buf : List Char) (w : World) :
    (Callback.build_date_show buf).events w =
      [Event.lock, Event.inb BLT_DATE_ADDR, Event.inb BLT_MONTH_ADDR, Event.unlock] := by
  simp [Callback.events, Callback.run, build_date_show, mutex_lock, mutex_unlock, inb,
    BLT_DATE_ADDR, BLT_MONTH_ADDR]

theorem events_scratch_show (buf : List Char) (w : World) :
    (Callback.scratch_show buf).events w =
      [Event.lock, Event.inb SCRATCH_ADDR, Event.unlock] := by
  simp [Callback.events, Callback.run, scratch_show, mutex_lock, mutex_unlock, inb, SCRATCH_ADDR]

theorem events_scratch_store (buf : List Char) (count : Nat) (w : World) :
    (Callback.scratch_store buf count).events w =
      if uint16_t (strtoul buf).1 = 0 ∧ (strtoul buf).2 = 0 then [Event.lock, Event.unlock]
      else [Event.lock, Event.outb (uint16_t (strtoul buf).1 % 2 ^ 8) SCRATCH_ADDR,
            Event.unlock] := by
  simp only [Callback.events, Callback.run, scratch_store]
  split_ifs <;> simp [mutex_lock, mutex_unlock, outb, SCRATCH_ADDR]

theorem events_getreg_show (buf : List Char) (w : World) :
    (Callback.getreg_show buf).events w =
      [Event.lock, Event.inb (w.read_addr % 2 ^ 16), Event.unlock] := by
  simp [Callback.events, Callback.run, getreg_show, mutex_lock, mutex_unlock, inb]

theorem events_getreg_store (buf : List Char) (count : Nat) (w : World) :
    (Callback.getreg_store buf count).events w = [] := by
  simp only [Callback.events, Callback.run, getreg_store]
  split_ifs <;> rfl

theorem events_setreg_store (buf : List Char) (count : Nat) (w : World) :
    (Callback.setreg_store buf count).events w = [Event.lock, Event.unlock] ∨
    ∃ v a, (Callback.setreg_store buf count).events w =
      [Event.lock, Event.outb v a, Event.unlock] := by
  simp only [Callback.events, Callback.run, setreg_store]
  cases strcpy_fits buf count <;> simp only [if_true, if_false, Bool.false_eq_true] <;>
  · split
    · left; simp [mutex_lock, mutex_unlock]
    · split_ifs
      · left; simp [mutex_lock, mutex_unlock]
      · split
        · left; simp [mutex_lock, mutex_unlock]
        · split_ifs
          · left; simp [mutex_lock, mutex_unlock]
          · right; exact ⟨_, _, by simp [mutex_lock, mutex_unlock, outb]; exact ⟨rfl, rfl⟩⟩

theorem events_sys_led_show (buf : List Char) (w : World) :
    (Callback.sys_led_show buf).events w =
      [Event.lock, Event.inb SYS_LED_ADDR, Event.unlock] := by
  simp [Callback.events, Callback.run, sys_led_show_eq]

theorem events_sys_led_color_show (buf : List Char) (w : World) :
    (Callback.sys_led_color_show buf).events w =
      [Event.lock, Event.inb SYS_LED_ADDR, Event.unlock] := by
  simp [Callback.events, Callback.run, sys_led_color_show_eq]

theorem events_sys_led_store (buf : List Char) (count : Nat) (w : World) :
    (Callback.sys_led_store buf count).events w = [] ∨
    ∃ v, (Callback.sys_led_store buf count).events w =
      [Event.lock, Event.inb SYS_LED_ADDR, Event.outb v SYS_LED_ADDR, Event.unlock] := by
  simp only [Callback.events, Callback.run, sys_led_store_eq]
  cases sys_led_status buf with
  | none => left; rfl
  | some k => right; exact ⟨_, rfl⟩

theorem events_sys_led_color_store (buf : List Char) (count : Nat) (w : World) :
    (Callback.sys_led_color_store buf count).events w = [] ∨
    ∃ v, (Callback.sys_led_color_store buf count).events w =
      [Event.lock, Event.inb SYS_LED_ADDR, Event.outb v SYS_LED_ADDR, Event.unlock] := by
  simp only [Callback.events, Callback.run, sys_led_color_store_eq]
  cases sys_led_color_status buf with
  | none => left; rfl
  | some k => right; exact ⟨_, rfl⟩

theorem events_reboot_cause_show (buf : List Char) (w : World) :
    (Callback.reboot_cause_show buf).events w =
      [Event.lock, Event.inb REBOOT_CAUSE, Event.unlock] := by
  simp [Callback.events, Callback.run, reboot_cause_show_eq]

theorem dump_read_loop_trace (count : Nat) :
    ∀ (fuel i off : Nat) (buf : List Char) (w : World), i + fuel = count →
      (dump_read_loop count fuel i off buf w).2.trace = w.trace ++ dump_events fuel off := by
  intro fuel
  induction fuel with
  | zero => intro i off buf w _; simp [dump_read_loop, dump_events]
  | succ n ih =>
    intro i off buf w h
    have hi : i < count := by omega
    simp only [dump_read_loop, hi, if_true]
    rw [ih (i + 1) (off + 1) _ _ (by omega)]
    simp [msleep, inb, dump_events]

theorem events_dump_read (buf : List Char) (off count : Nat) (w : World) :
    (Callback.dump_read buf off count).events w =
      [Event.lock] ++ dump_events count off ++ [Event.unlock] := by
  simp only [Callback.events, Callback.run, dump_read, mutex_unlock]
  rw [dump_read_loop_trace count count 0 off buf _ (by omega)]
  simp [mutex_lock]

theorem dump_events_in_window :
    ∀ (n off : Nat), off + n ≤ CPLD_REGISTER_SIZE →
      ∀ e ∈ dump_events n off, ∀ p, e.port? = some p → in_window p := by
  intro n
  induction n with
  | zero => intro off _ e he; simp [dump_events] at he
  | succ n ih =>
    intro off h e he p hp
    simp only [dump_events, List.mem_cons] at he
    rcases he with rfl | rfl | he
    · simp only [Event.port?, Option.some.injEq] at hp
      subst hp
      simp only [CPLD_REGISTER_SIZE] at h
      simp only [in_window, cpld_b_resources, VERSION_ADDR]
      omega
    · simp [Event.port?] at hp
    · exact ih (off + 1) (by omega) e he p hp

theorem lock_replay_dump_events (rest : List Event) :
    ∀ (n off : Nat), lock_replay true (dump_events n off ++ rest) = lock_replay true rest := by
  intro n
  induction n with
  | zero => intro off; simp [dump_events]
  | succ n ih => intro off; simp [dump_events, lock_replay, ih]

theorem count_dump_events :
    ∀ (n off : Nat), (dump_events n off).count Event.lock = 0 ∧
      (dump_events n off).count Event.unlock = 0 := by
  intro n
  induction n with
  | zero => intro off; simp [dump_events]
  | succ n ih =>
    intro off
    have h := ih (off + 1)
    simp [dump_events, List.count_cons, h.1, h.2]

/-- C6 (counterexample): right after probe, `setreg_store` of the text `80 1`
writes port `0x80`, which lies outside the window `0xA100..0xA192`; so not
every port address a callback touches lies in the window. -/
theorem port_window_violated :
    Event.outb 1 0x80 ∈ (Callback.setreg_store "80 1".toList 4).events (probed fun _ => 0) ∧
    ¬ in_window 0x80 ∧
    ¬ (∀ (cb : Callback) (w : World), Reachable w →
        ∀ e ∈ cb.events w, ∀ p, e.port? = some p → in_window p) := by
  have hmem : Event.outb 1 0x80 ∈
      (Callback.setreg_store "80 1".toList 4).events (probed fun _ => 0) := by decide
  refine ⟨hmem, by decide, ?_⟩
  intro h
  have hw := h (Callback.setreg_store "80 1".toList 4) (probed fun _ => 0)
    (Reachable.probe _) (Event.outb 1 0x80) hmem 0x80 rfl
  revert hw
  decide

/-- C6 (amended): in every driver state and for every input, every port address
read or written by a callback whose addresses are constants of the driver
(all but `getreg_show` and `setreg_store`; `dump_read` for offsets inside the
attribute's size) lies in the window `0xA100..0xA192`.  `getreg_show` reads
the one port `read_addr`, and `setreg_store` performs at most one port access,
a write. -/
theorem port_window_fixed_callbacks (w : World) :
    (∀ cb : Callback, cb.fixed_address →
        ∀ e ∈ cb.events w, ∀ p, e.port? = some p → in_window p) ∧
    (∀ buf, (Callback.getreg_show buf).events w =
        [Event.lock, Event.inb (w.read_addr % 2 ^ 16), Event.unlock]) ∧
    (∀ buf count, (Callback.getreg_store buf count).events w = []) ∧
    (∀ buf count, (Callback.setreg_store buf count).events w = [Event.lock, Event.unlock] ∨
        ∃ v a, (Callback.setreg_store buf count).events w =
          [Event.lock, Event.outb v a, Event.unlock]) := by
  refine ⟨?_, fun buf => events_getreg_show buf w, fun buf count => events_getreg_store buf count w,
    fun buf count => events_setreg_store buf count w⟩
  intro cb hfix e he p hp
  cases cb with
  | version_show buf =>
    rw [events_version_show] at he
    simp only [List.mem_cons, List.mem_singleton, List.not_mem_nil, or_false] at he
    rcases he with rfl | rfl | rfl <;> simp [Event.port?] at hp
    subst hp; decide
  | build_date_show buf =>
    rw [events_build_date_show] at he
    simp only [List.mem_cons, List.mem_singleton, List.not_mem_nil, or_false] at he
    rcases he with rfl | rfl | rfl | rfl <;> simp [Event.port?] at hp <;> subst hp <;> decide
  | scratch_show buf =>
    rw [events_scratch_show] at he
    simp only [List.mem_cons, List.mem_singleton, List.not_mem_nil, or_false] at he
    rcases he with rfl | rfl | rfl <;> simp [Event.port?] at hp
    subst hp; decide
  | scratch_store buf count =>
    rw [events_scratch_store] at he
    split_ifs at he <;>
      simp only [List.mem_cons, List.mem_singleton, List.not_mem_nil, or_false] at he
    · rcases he with rfl | rfl <;> simp [Event.port?] at hp
    · rcases he with rfl | rfl | rfl <;> simp [Event.port?] at hp
      subst hp; decide
  | getreg_show buf => exact absurd hfix (by simp [Callback.fixed_address])
  | getreg_store buf count =>
    rw [events_getreg_store] at he
    simp at he
  | setreg_store buf count => exact absurd hfix (by simp [Callback.fixed_address])
  | sys_led_show buf =>
    rw [events_sys_led_show] at he
    simp only [List.mem_cons, List.mem_singleton, List.not_mem_nil, or_false] at he
    rcases he with rfl | rfl | rfl <;> simp [Event.port?] at hp
    subst hp; decide
  | sys_led_store buf count =>
    rcases events_sys_led_store buf count w with h | ⟨v, h⟩ <;> rw [h] at he
    · simp at he
    · simp only [List.mem_cons, List.mem_singleton, List.not_mem_nil, or_false] at he
      rcases he with rfl | rfl | rfl | rfl <;> simp [Event.port?] at hp <;> subst hp <;> decide
  | sys_led_color_show buf =>
    rw [events_sys_led_color_show] at he
    simp only [List.mem_cons, List.mem_singleton, List.not_mem_nil, or_false] at he
    rcases he with rfl | rfl | rfl <;> simp [Event.port?] at hp
    subst hp; decide
  | sys_led_color_store buf count =>
    rcases events_sys_led_color_store buf count w with h | ⟨v, h⟩ <;> rw [h] at he
    · simp at he
    · simp only [List.mem_cons, List.mem_singleton, List.not_mem_nil, or_false] at he
      rcases he with rfl | rfl | rfl | rfl <;> simp [Event.port?] at hp <;> subst hp <;> decide
  | reboot_cause_show buf =>
    rw [events_reboot_cause_show] at he
    simp only [List.mem_cons, List.mem_singleton, List.not_mem_nil, or_false] at he
    rcases he with rfl | rfl | rfl <;> simp [Event.port?] at hp
    subst hp; decide
  | dump_read buf off count =>
    rw [events_dump_read] at he
    simp only [List.mem_append, List.mem_singleton] at he
    rcases he with (rfl | he) | rfl
    · simp [Event.port?] at hp
    · exact dump_events_in_window count off hfix e he p hp
    · simp [Event.port?] at hp

/-- Witness for C6 (amended): `dump_read` of the last three registers reads
port `0xA192`, the end of the window. -/
theorem port_window_fixed_callbacks_witness : in_window 0xA192 :=
  (port_window_fixed_callbacks (probed fun _ => 0)).1 (Callback.dump_read [] 0x90 3)
    (by simp [Callback.fixed_address, CPLD_REGISTER_SIZE]) (Event.inb 0xA192) (by decide)
    0xA192 rfl

/-- C8: register access is gated by the single mutex `cpld_lock`.  For every
callback, every input and every world, replaying the events of the callback
from a free lock succeeds and ends with the lock free: every `inb` / `outb`
happens while the lock is held, the lock is never taken while held nor
released while free, and it is released as many times as it was acquired. -/
theorem cpld_lock_gates_io (cb : Callback) (w : World) :
    lock_replay false (cb.events w) = some false ∧
    (cb.events w).count Event.lock = (cb.events w).count Event.unlock := by
  cases cb with
  | version_show buf => rw [events_version_show]; decide
  | build_date_show buf => rw [events_build_date_show]; decide
  | scratch_show buf => rw [events_scratch_show]; decide
  | scratch_store buf count =>
    rw [events_scratch_store]
    split_ifs <;> simp [lock_replay, List.count_cons]
  | getreg_show buf => rw [events_getreg_show]; simp [lock_replay, List.count_cons]
  | getreg_store buf count => rw [events_getreg_store]; decide
  | setreg_store buf count =>
    rcases events_setreg_store buf count w with h | ⟨v, a, h⟩ <;> rw [h] <;>
      simp [lock_replay, List.count_cons]
  | sys_led_show buf => rw [events_sys_led_show]; decide
  | sys_led_store buf count =>
    rcases events_sys_led_store buf count w with h | ⟨v, h⟩ <;> rw [h] <;>
      simp [lock_replay, List.count_cons]
  | sys_led_color_show buf => rw [events_sys_led_color_show]; decide
  | sys_led_color_store buf count =>
    rcases events_sys_led_color_store buf count w with h | ⟨v, h⟩ <;> rw [h] <;>
      simp [lock_replay, List.count_cons]
  | reboot_cause_show buf => rw [events_reboot_cause_show]; decide
  | dump_read buf off count =>
    rw [events_dump_read]
    have hc := count_dump_events count off
    constructor
    · simp [lock_replay, lock_replay_dump_events]
    · simp [List.count_cons, List.count_append, hc.1, hc.2]

/-! ## Helper lemmas: the version text -/

theorem shown_of_shows (r : Int × List Char × World) (buf text : List Char)
    (h : shows r buf text) : shown r = text := by
  obtain ⟨h1, h2⟩ := h
  simp [shown, h1, h2]

set_option maxRecDepth 1000000 in
theorem version_byte_facts : ∀ v : Fin 256,
    fmt_d (v.val >>> 4) ++ ['.'] ++ fmt_d (v.val &&& 0x0F) ++ [NL] = version_text v.val ∧
    version_decode (version_text v.val) = v.val := by
  decide

theorem version_show_eq (buf : List Char) (w : World) :
    version_show buf w =
      ((sprintf buf (version_text (w.ports VERSION_ADDR % 2 ^ 8))).1,
       (sprintf buf (version_text (w.ports VERSION_ADDR % 2 ^ 8))).2,
       { w with trace := w.trace ++ [Event.lock, Event.inb VERSION_ADDR, Event.unlock] }) := by
  have hv : w.ports VERSION_ADDR % 2 ^ 8 < 256 := Nat.mod_lt _ (by norm_num)
  have h := (version_byte_facts ⟨w.ports VERSION_ADDR % 2 ^ 8, hv⟩).1
  simp only [] at h
  have e : VERSION_ADDR % 2 ^ 16 = VERSION_ADDR := by decide
  simp only [List.append_assoc] at h
  simp only [version_show, mutex_lock, mutex_unlock, inb, e, List.append_assoc, h]
  rfl

/-- C9: `version_show` formats the version register as `major.minor` in
decimal.  For the byte `v` read from `VERSION_ADDR` the text written is the
decimal text of `v / 16`, a dot, the decimal text of `v % 16` and a newline,
and the value returned is its length; both numbers are below 16 and
`v = 16 * (v / 16) + v % 16`; two reads that print the same text read the same
byte. -/
theorem version_show_spec (buf : List Char) (w : World) :
    shows (version_show buf w) buf
      ((Nat.repr (w.ports VERSION_ADDR % 2 ^ 8 / 16)).toList ++ ['.'] ++
        (Nat.repr (w.ports VERSION_ADDR % 2 ^ 8 % 16)).toList ++ [NL]) ∧
    w.ports VERSION_ADDR % 2 ^ 8 / 16 < 16 ∧
    w.ports VERSION_ADDR % 2 ^ 8 % 16 < 16 ∧
    w.ports VERSION_ADDR % 2 ^ 8 =
      16 * (w.ports VERSION_ADDR % 2 ^ 8 / 16) + w.ports VERSION_ADDR % 2 ^ 8 % 16 ∧
    (∀ (buf2 : List Char) (w2 : World),
      shown (version_show buf w) = shown (version_show buf2 w2) →
      w.ports VERSION_ADDR % 2 ^ 8 = w2.ports VERSION_ADDR % 2 ^ 8) := by
  have hs : ∀ (b : List Char) (x : World),
      shows (version_show b x) b (version_text (x.ports VERSION_ADDR % 2 ^ 8)) := by
    intro b x
    rw [version_show_eq]
    exact ⟨rfl, rfl⟩
  refine ⟨hs buf w, ?_, ?_, ?_, ?_⟩
  · have hv : w.ports VERSION_ADDR % 2 ^ 8 < 256 := Nat.mod_lt _ (by norm_num)
    omega
  · omega
  · omega
  · intro buf2 w2 h
    rw [shown_of_shows _ _ _ (hs buf w), shown_of_shows _ _ _ (hs buf2 w2)] at h
    have hv : w.ports VERSION_ADDR % 2 ^ 8 < 256 := Nat.mod_lt _ (by norm_num)
    have hv2 : w2.ports VERSION_ADDR % 2 ^ 8 < 256 := Nat.mod_lt _ (by norm_num)
    have d1 := (version_byte_facts ⟨w.ports VERSION_ADDR % 2 ^ 8, hv⟩).2
    have d2 := (version_byte_facts ⟨w2.ports VERSION_ADDR % 2 ^ 8, hv2⟩).2
    simp only [] at d1 d2
    rw [← d1, ← d2, h]

/-- Witness for C9: the register bytes `0x1A` and `0xA1` print `1.10` and
`10.1`, and a world printing the same text as `0x1A` holds `0x1A`. -/
theorem version_show_spec_witness :
    shown (version_show [] ⟨fun _ => 0x1A, 0, []⟩) = "1.10".toList ++ [NL] ∧
    shown (version_show [] ⟨fun _ => 0xA1, 0, []⟩) = "10.1".toList ++ [NL] ∧
    (0x1A % 2 ^ 8 = 0x11A % 2 ^ 8) := by
  refine ⟨by decide, by decide, ?_⟩
  exact (version_show_spec [] ⟨fun _ => 0x1A, 0, []⟩).2.2.2.2 [] ⟨fun _ => 0x11A, 0, []⟩
    (by decide)

end BaseboardLpc

namespace QciPlatformIx9

/-! ## Helper lemmas: the success path of the module initialisation -/

theorem ix9_platform_init_success (reg_ret : Int) (h : 0 ≤ reg_ret) :
    ix9_platform_init reg_ret true 0 = (0, (ix9_platform_init 0 true 0).2) := by
  simp [ix9_platform_init, not_lt.mpr h]

set_option maxRecDepth 1000000 in
theorem sfp_registrations :
    ((registrations (ix9_platform_init 0 true 0).2).filter (fun r => r.2 = optoe1)).map Prod.fst
      = sfp_channels := by
  decide

set_option maxRecDepth 1000000 in
theorem sfp_registrations_count : ∀ i : Fin 32,
    (registrations (ix9_platform_init 0 true 0).2).count (0x20 + i.val, optoe1) = 1 := by
  decide

/-- C7: per-port transceiver EEPROM fan-out.  When platform registration
succeeds, `ix9_platform_init` returns 0 and registers the `optoe1` EEPROM
(address `0x50`) exactly once on each adapter id `0x20..0x3f`, 32 registrations
in all; the adapters of these registrations are, in order, the channel ids of
`pca9548sfp1_modes` .. `pca9548sfp4_modes`, which are pairwise distinct and are
exactly the ids `0x20..0x3f`; and every mux table's `num_modes` is the length
of its `modes` array. -/
theorem sfp_eeprom_fan_out (reg_ret : Int) (h : 0 ≤ reg_ret) :
    (ix9_platform_init reg_ret true 0).1 = 0 ∧
    ix9_i2c_devices[10]? = some optoe1 ∧ optoe1.addr = 0x50 ∧
    (∀ id, 0x20 ≤ id → id ≤ 0x3f →
      (registrations (ix9_platform_init reg_ret true 0).2).count (id, optoe1) = 1) ∧
    ((registrations (ix9_platform_init reg_ret true 0).2).filter
      (fun r => r.2 = optoe1)).length = 32 ∧
    ((registrations (ix9_platform_init reg_ret true 0).2).filter
      (fun r => r.2 = optoe1)).map Prod.fst = sfp_channels ∧
    sfp_channels.Nodup ∧
    (∀ id, id ∈ sfp_channels ↔ 0x20 ≤ id ∧ id ≤ 0x3f) ∧
    (∀ d ∈ mux_tables, d.num_modes = d.modes.length) := by
  rw [ix9_platform_init_success reg_ret h]
  have hlist : sfp_channels = List.range' 0x20 32 := by decide
  refine ⟨rfl, by decide, by decide, ?_, ?_, sfp_registrations, ?_, ?_, by decide⟩
  · intro id h1 h2
    have := sfp_registrations_count ⟨id - 0x20, by omega⟩
    simp only [] at this
    rwa [show 0x20 + (id - 0x20) = id by omega] at this
  · have := congrArg List.length sfp_registrations
    rw [List.length_map] at this
    rw [this]
    decide
  · rw [hlist]; exact List.nodup_range' _ _
  · intro id
    rw [hlist, List.mem_range']
    constructor
    · rintro ⟨i, hi, rfl⟩; omega
    · intro ⟨h1, h2⟩; exact ⟨id - 0x20, by omega, by omega⟩

/-- Witness for C7: with `platform_driver_register` returning 0, the EEPROM is
registered exactly once on adapter `0x2a`. -/
theorem sfp_eeprom_fan_out_witness :
    (registrations (ix9_platform_init 0 true 0).2).count (0x2a, optoe1) = 1 :=
  (sfp_eeprom_fan_out 0 (le_refl 0)).2.2.2.1 0x2a (by norm_num) (by norm_num)

/-! ## Helper lemmas: registration order -/

set_option maxRecDepth 1000000 in
theorem success_calls_length : (ix9_platform_init 0 true 0).2.length = 130 := by
  decide

set_option maxRecDepth 1000000 in
theorem parent_registered_success : ∀ k : Fin 130,
    parent_registered (ix9_platform_init 0 true 0).2 k.val = true := by
  decide

theorem parent_registered_sound (calls : List Call) (k a : Nat)
    (hk : parent_registered calls k = true)
    (hget : calls[k]? = some (Call.i2c_get_adapter a)) (ha : a ≠ 0) :
    ∃ b info, (b, info) ∈ registrations (calls.take k) ∧ a ∈ channels info := by
  simp only [parent_registered, hget, Bool.or_eq_true, beq_iff_eq, List.any_eq_true] at hk
  rcases hk with h0 | ⟨r, hr, hc⟩
  · exact absurd h0 ha
  · exact ⟨r.1, r.2, hr, by simpa using hc⟩

set_option maxRecDepth 1000000 in
theorem success_call_34 :
    (ix9_platform_init 0 true 0).2[34]? = some (Call.i2c_get_adapter 0x20) := by
  decide

/-- C10: the I2C registrations of `ix9_platform_init` are in parent-before-child
order.  On the success path every adapter id other than 0 that is fetched is
a channel of a mux whose board info was registered earlier in the sequence;
replaying the registrations from root adapter 0 alone, every registration is
on an adapter already reached; and the channels are `0x10..0x13` for the
pca9546 at `0x72`, `0x14..0x17` for the pca9548 at `0x77` (both registered on
adapter 0), and `0x20..0x3f` for the four pca9548 muxes at `0x73` (registered
on adapters `0x14..0x17`). -/
theorem registrations_parent_before_child (reg_ret : Int) (h : 0 ≤ reg_ret) :
    (∀ k a, (ix9_platform_init reg_ret true 0).2[k]? = some (Call.i2c_get_adapter a) → a ≠ 0 →
      ∃ b info, (b, info) ∈ registrations ((ix9_platform_init reg_ret true 0).2.take k) ∧
        a ∈ channels info) ∧
    topology_replay [0] (registrations (ix9_platform_init reg_ret true 0).2) = true ∧
    (registrations (ix9_platform_init reg_ret true 0).2).take 2 =
      [(0, I2C_BOARD_INFO "pca9546" 0x72 (.pca954x pca9546_1_data)),
       (0, I2C_BOARD_INFO "pca9548" 0x77 (.pca954x pca9548_1_data))] ∧
    channels (I2C_BOARD_INFO "pca9546" 0x72 (.pca954x pca9546_1_data)) =
      [0x10, 0x11, 0x12, 0x13] ∧
    channels (I2C_BOARD_INFO "pca9548" 0x77 (.pca954x pca9548_1_data)) =
      [0x14, 0x15, 0x16, 0x17] ∧
    (registrations (ix9_platform_init reg_ret true 0).2).filter
        (fun r => r.2.type = "pca9548" ∧ r.2.addr = 0x73) =
      [(0x14, I2C_BOARD_INFO "pca9548" 0x73 (.pca954x pca9548sfp1_data)),
       (0x15, I2C_BOARD_INFO "pca9548" 0x73 (.pca954x pca9548sfp2_data)),
       (0x16, I2C_BOARD_INFO "pca9548" 0x73 (.pca954x pca9548sfp3_data)),
       (0x17, I2C_BOARD_INFO "pca9548" 0x73 (.pca954x pca9548sfp4_data))] ∧
    channels (I2C_BOARD_INFO "pca9548" 0x73 (.pca954x pca9548sfp1_data)) ++
      channels (I2C_BOARD_INFO "pca9548" 0x73 (.pca954x pca9548sfp2_data)) ++
      channels (I2C_BOARD_INFO "pca9548" 0x73 (.pca954x pca9548sfp3_data)) ++
      channels (I2C_BOARD_INFO "pca9548" 0x73 (.pca954x pca9548sfp4_data)) =
      List.range' 0x20 32 := by
  rw [ix9_platform_init_success reg_ret h]
  refine ⟨?_, by decide, by decide, by decide, by decide, by decide, by decide⟩
  intro k a hget ha
  have hk : k < 130 := by
    by_contra hge
    have hnone : (ix9_platform_init 0 true 0).2[k]? = none := by
      rw [List.getElem?_eq_none_iff, success_calls_length]
      omega
    simp only [] at hget
    rw [hnone] at hget
    cases hget
  exact parent_registered_sound _ k a (parent_registered_success ⟨k, hk⟩) hget ha

/-- Witness for C10: adapter `0x20`, fetched by call 34 of the success path,
is a channel of a mux registered among the 34 calls before it. -/
theorem registrations_parent_before_child_witness :
    ∃ b info, (b, info) ∈ registrations ((ix9_platform_init 0 true 0).2.take 34) ∧
      0x20 ∈ channels info :=
  (registrations_parent_before_child 0 (le_refl 0)).1 34 0x20 success_call_34 (by decide)

end QciPlatformIx9

namespace BaseboardLpc

/-! ## Helper lemmas: the parser of `setreg_store` -/

theorem le_lor (n m : Nat) : n ≤ n ||| m :=
  Nat.le_of_testBit (fun i h => by simp [h])

set_option maxRecDepth 1000000 in
theorem lor_0x20_small : ∀ n : Fin 128,
    ((0x61 ≤ (n.val ||| 0x20) ∧ (n.val ||| 0x20) ≤ 0x66) ↔
      ((0x61 ≤ n.val ∧ n.val ≤ 0x66) ∨ (0x41 ≤ n.val ∧ n.val ≤ 0x46))) ∧
    ((0x61 ≤ n.val ∧ n.val ≤ 0x66) → (n.val ||| 0x20) = n.val) ∧
    ((0x41 ≤ n.val ∧ n.val ≤ 0x46) → (n.val ||| 0x20) = n.val + 0x20) ∧
    ((n.val ||| 0x20) = 0x78 ↔ (n.val = 0x78 ∨ n.val = 0x58)) := by
  decide

theorem lor_0x20 (n : Nat) :
    ((0x61 ≤ (n ||| 0x20) ∧ (n ||| 0x20) ≤ 0x66) ↔
      ((0x61 ≤ n ∧ n ≤ 0x66) ∨ (0x41 ≤ n ∧ n ≤ 0x46))) ∧
    ((0x61 ≤ n ∧ n ≤ 0x66) → (n ||| 0x20) = n) ∧
    ((0x41 ≤ n ∧ n ≤ 0x46) → (n ||| 0x20) = n + 0x20) ∧
    ((n ||| 0x20) = 0x78 ↔ (n = 0x78 ∨ n = 0x58)) := by
  by_cases h : n < 128
  · exact lor_0x20_small ⟨n, h⟩
  · have hle := le_lor n 0x20
    refine ⟨?_, ?_, ?_, ?_⟩
    · constructor
      · intro h1; omega
      · intro h1; omega
    · intro h1; omega
    · intro h1; omega
    · constructor
      · intro h1; omega
      · intro h1; omega

/-- `_parse_integer` classifies characters as the specification's hexadecimal
digits, with the same values. -/
theorem digit_val_eq (c : Char) :
    digit_val c = if is_hex_digit c then some (hex_digit_value c) else none := by
  have h := lor_0x20 c.toNat
  obtain ⟨h1, h2, h3, _⟩ := h
  have e0 : '0'.toNat = 0x30 := by decide
  have e9 : '9'.toNat = 0x39 := by decide
  have ea : 'a'.toNat = 0x61 := by decide
  have ef : 'f'.toNat = 0x66 := by decide
  have eA : 'A'.toNat = 0x41 := by decide
  have eF : 'F'.toNat = 0x46 := by decide
  simp only [digit_val, is_hex_digit, hex_digit_value, e0, e9, ea, ef, eA, eF]
  by_cases d : 0x30 ≤ c.toNat ∧ c.toNat ≤ 0x39
  · simp [d]
  · by_cases l : 0x61 ≤ c.toNat ∧ c.toNat ≤ 0x66
    · have hl := h2 l
      have hin := h1.mpr (Or.inl l)
      simp only [Nat.reduceAdd] at hl hin ⊢
      simp [d, l, hl]
    · by_cases u : 0x41 ≤ c.toNat ∧ c.toNat ≤ 0x46
      · have hu := h3 u
        have hin := h1.mpr (Or.inr u)
        simp only [Nat.reduceAdd] at hu hin ⊢
        simp [d, l, u, hu]
      · have hnot : ¬ (0x61 ≤ (c.toNat ||| 0x20) ∧ (c.toNat ||| 0x20) ≤ 0x66) := by
          intro hc
          rcases h1.mp hc with x | x
          · exact l x
          · exact u x
        simp only [Nat.reduceAdd] at hnot ⊢
        simp [d, l, u, hnot]

theorem hex_digit_value_lt (c : Char) (h : is_hex_digit c = true) : hex_digit_value c < 16 := by
  have e0 : '0'.toNat = 0x30 := by decide
  have e9 : '9'.toNat = 0x39 := by decide
  have ea : 'a'.toNat = 0x61 := by decide
  have ef : 'f'.toNat = 0x66 := by decide
  have eA : 'A'.toNat = 0x41 := by decide
  have eF : 'F'.toNat = 0x46 := by decide
  simp only [is_hex_digit, e0, e9, ea, ef, eA, eF, Bool.or_eq_true, Bool.and_eq_true,
    decide_eq_true_eq] at h
  simp only [hex_digit_value, e0, e9, ea, ef, eA, eF]
  split_ifs <;> omega

theorem char_eq_of_toNat (c : Char) (n : Nat) (h : c.toNat = n) : c = Char.ofNat n := by
  rw [← h, Char.ofNat_toNat]

theorem foldl_hex_mod (M : Nat) (l : List Char) :
    ∀ a b : Nat, a % M = b % M →
      l.foldl (fun acc c => 16 * acc + hex_digit_value c) a % M =
        l.foldl (fun acc c => 16 * acc + hex_digit_value c) b % M := by
  induction l with
  | nil => intro a b h; simpa using h
  | cons c l ih =>
    intro a b h
    simp only [List.foldl_cons]
    apply ih
    have h' : a ≡ b [MOD M] := h
    exact (h'.mul_left 16).add_right (hex_digit_value c)

/-- `_parse_integer` in base 16 consumes the longest run of leading
hexadecimal digits and accumulates their value modulo `2 ^ 64`. -/
theorem parse_integer_eq (s : List Char) :
    ∀ res rv : Nat,
      (parse_integer 16 s res rv).2 = rv + (s.takeWhile is_hex_digit).length ∧
      (parse_integer 16 s res rv).1 % 2 ^ 64 =
        (s.takeWhile is_hex_digit).foldl (fun acc c => 16 * acc + hex_digit_value c) res
          % 2 ^ 64 := by
  induction s with
  | nil => intro res rv; simp [parse_integer]
  | cons c s ih =>
    intro res rv
    by_cases h : is_hex_digit c = true
    · have hlt := hex_digit_value_lt c h
      have hge : ¬ hex_digit_value c ≥ 16 := by omega
      simp only [parse_integer, digit_val_eq, h, if_true, hge, if_false,
        List.takeWhile_cons_of_pos h, List.length_cons, List.foldl_cons]
      obtain ⟨i1, i2⟩ := ih ((res * 16 + hex_digit_value c) % 2 ^ 64) (rv + 1)
      refine ⟨by rw [i1]; omega, ?_⟩
      rw [i2]
      apply foldl_hex_mod
      rw [Nat.mod_mod, Nat.mul_comm]
    · simp only [parse_integer, digit_val_eq, h, List.takeWhile_cons_of_neg h]
      simp

theorem parse_integer_fixup_radix_eq (tok : List Char) :
    parse_integer_fixup_radix tok = if has_radix_mark tok then 2 else 0 := by
  cases tok with
  | nil => simp [parse_integer_fixup_radix, has_radix_mark, peek, NUL]
  | cons c t =>
    cases t with
    | nil =>
      have h : ¬ ((NUL.toNat ||| 0x20) = 120) := by decide
      simp [parse_integer_fixup_radix, has_radix_mark, peek, h]
    | cons x r =>
      have hx := (lor_0x20 x.toNat).2.2.2
      have e : 'x'.toNat = 0x78 := by decide
      have hxx : ((x.toNat ||| 0x20) = 'x'.toNat) ↔ (x = 'x' ∨ x = 'X') := by
        rw [e, hx]
        constructor
        · rintro (h | h)
          · left; exact char_eq_of_toNat x _ h
          · right; exact char_eq_of_toNat x _ h
        · rintro (h | h)
          · left; rw [h]; decide
          · right; rw [h]; decide
      simp only [parse_integer_fixup_radix, has_radix_mark, peek, List.headD_cons, List.tail_cons,
        hxx, Bool.and_eq_true, Bool.or_eq_true, decide_eq_true_eq]

/-- `strtoul` consumes nothing exactly when the token has no leading
hexadecimal digit, and its value is the token's hexadecimal number modulo
`2 ^ 64`. -/
theorem strtoul_eq (tok : List Char) :
    ((strtoul tok).2 = 0 ↔ has_leading_hex_digit tok = false) ∧
    ((strtoul tok).2 = 0 → (strtoul tok).1 = 0) ∧
    (strtoul tok).1 % 2 ^ 64 = hex_number tok % 2 ^ 64 := by
  have hp := parse_integer_eq
    (tok.drop (parse_integer_fixup_radix tok)) 0 0
  obtain ⟨p1, p2⟩ := hp
  have hs : strtoul tok =
      ((parse_integer 16 (tok.drop (parse_integer_fixup_radix tok)) 0 0).1,
       parse_integer_fixup_radix tok +
        (parse_integer 16 (tok.drop (parse_integer_fixup_radix tok)) 0 0).2) := rfl
  rw [hs]
  simp only [p1, Nat.zero_add]
  by_cases hpre : has_radix_mark tok = true
  · have hskip : parse_integer_fixup_radix tok = 2 := by
      rw [parse_integer_fixup_radix_eq, if_pos hpre]
    have hlead : has_leading_hex_digit tok = true := by
      cases tok with
      | nil => simp [has_radix_mark] at hpre
      | cons c t =>
        cases t with
        | nil => simp [has_radix_mark] at hpre
        | cons x r =>
          simp only [has_radix_mark, Bool.and_eq_true, decide_eq_true_eq] at hpre
          simp only [has_leading_hex_digit, hpre.1]
          decide
    refine ⟨?_, ?_, ?_⟩
    · rw [hskip, hlead]; simp
    · rw [hskip]; intro h; omega
    · rw [p2]
      simp only [hskip] 
      simp only [hex_number, hex_value, hpre, if_true]
  · have hskip : parse_integer_fixup_radix tok = 0 := by
      rw [parse_integer_fixup_radix_eq, if_neg hpre]
    simp only [hskip, List.drop_zero, Nat.zero_add] at p1 p2 ⊢
    refine ⟨?_, ?_, ?_⟩
    · cases tok with
      | nil => simp [has_leading_hex_digit]
      | cons c t =>
        by_cases hc : is_hex_digit c = true
        · simp [has_leading_hex_digit, hc, List.takeWhile_cons_of_pos hc]
        · simp [has_leading_hex_digit, hc, List.takeWhile_cons_of_neg hc]
    · intro h
      cases tok with
      | nil => simp [parse_integer]
      | cons c t =>
        by_cases hc : is_hex_digit c = true
        · simp [List.takeWhile_cons_of_pos hc] at h
        · simp [parse_integer, digit_val_eq, hc]
    · rw [p2]
      simp only [hex_number, hex_value, hpre]
      simp

theorem strtoul_reject16 (tok : List Char) :
    (uint16_t (strtoul tok).1 = 0 ∧ (strtoul tok).2 = 0) ↔ has_leading_hex_digit tok = false := by
  obtain ⟨h1, h2, _⟩ := strtoul_eq tok
  constructor
  · intro h; exact h1.mp h.2
  · intro h
    have h0 := h1.mpr h
    exact ⟨by rw [h2 h0]; rfl, h0⟩

theorem strtoul_reject8 (tok : List Char) :
    (uint8_t (strtoul tok).1 = 0 ∧ (strtoul tok).2 = 0) ↔ has_leading_hex_digit tok = false := by
  obtain ⟨h1, h2, _⟩ := strtoul_eq tok
  constructor
  · intro h; exact h1.mp h.2
  · intro h
    have h0 := h1.mpr h
    exact ⟨by rw [h2 h0]; rfl, h0⟩

theorem strtoul_uint16 (tok : List Char) :
    uint16_t (strtoul tok).1 = hex_number tok % 2 ^ 16 := by
  have h := (strtoul_eq tok).2.2
  have d : 2 ^ 16 ∣ 2 ^ 64 := Nat.pow_dvd_pow 2 (by norm_num)
  unfold uint16_t
  rw [← Nat.mod_mod_of_dvd (strtoul tok).1 d, h, Nat.mod_mod_of_dvd _ d]

theorem strtoul_uint8 (tok : List Char) :
    uint8_t (strtoul tok).1 = hex_number tok % 2 ^ 8 := by
  have h := (strtoul_eq tok).2.2
  have d : 2 ^ 8 ∣ 2 ^ 64 := Nat.pow_dvd_pow 2 (by norm_num)
  unfold uint8_t
  rw [← Nat.mod_mod_of_dvd (strtoul tok).1 d, h, Nat.mod_mod_of_dvd _ d]

/-- `strsep` on a string with the one delimiter space: the token is the text
before the first space, and the rest starts after that space. -/
theorem strsep_space (s : List Char) :
    strsep (some s) [' '] =
      (some (first_token s),
       match s.dropWhile (fun c => c ≠ ' ') with
       | [] => none
       | _ :: rest => some rest) := by
  have hf : (fun c : Char => !([' '].contains c)) = (fun c => decide (c ≠ ' ')) := by
    funext c
    simp
  unfold strsep first_token
  simp only []
  rw [hf, List.span_eq_take_drop]
  have h := List.takeWhile_append_dropWhile (fun c => decide (c ≠ ' ')) s
  generalize List.dropWhile (fun c => decide (c ≠ ' ')) s = d at h
  cases d with
  | nil =>
    rw [List.append_nil] at h
    rw [h]
  | cons x rest => rfl

/-- Closed form of `setreg_store`: the events and ports follow the two tokens
of the text, and the value returned is determined when the copy into `clone`
fits. -/
theorem setreg_store_eq (buf : List Char) (count : Nat) (w : World) :
    setreg_store buf count w =
      if has_leading_hex_digit (first_token (cstr buf)) = true then
        match second_token (cstr buf) with
        | none =>
          (if strcpy_fits buf count then some (-22) else none,
           { w with trace := w.trace ++ [Event.lock, Event.unlock] })
        | some tok2 =>
          if has_leading_hex_digit tok2 = true then
            (if strcpy_fits buf count then some (ssize_t count) else none,
             { ports := fun p => if p = hex_number (first_token (cstr buf)) % 2 ^ 16
                  then hex_number tok2 % 2 ^ 8 else w.ports p
               read_addr := w.read_addr
               trace := w.trace ++ [Event.lock,
                  Event.outb (hex_number tok2 % 2 ^ 8)
                    (hex_number (first_token (cstr buf)) % 2 ^ 16),
                  Event.unlock] })
          else
            (if strcpy_fits buf count then some (-22) else none,
             { w with trace := w.trace ++ [Event.lock, Event.unlock] })
      else
        (if strcpy_fits buf count then some (-22) else none,
         { w with trace := w.trace ++ [Event.lock, Event.unlock] }) := by
  unfold setreg_store
  simp only []
  rw [strsep_space]
  simp only []
  have r16 := strtoul_reject16 (first_token (cstr buf))
  by_cases h1 : has_leading_hex_digit (first_token (cstr buf)) = true
  · have n1 : ¬ (uint16_t (strtoul (first_token (cstr buf))).1 = 0 ∧
        (strtoul (first_token (cstr buf))).2 = 0) := by
      intro h; rw [r16.mp h] at h1; cases h1
    rw [if_neg n1, if_pos h1]
    unfold second_token
    cases List.dropWhile (fun c => decide (c ≠ ' ')) (cstr buf) with
    | nil =>
      simp [strsep, mutex_lock, mutex_unlock, EINVAL]
    | cons x rest =>
      simp only []
      rw [strsep_space]
      simp only []
      have r8 := strtoul_reject8 (first_token rest)
      by_cases h2 : has_leading_hex_digit (first_token rest) = true
      · have n2 : ¬ (uint8_t (strtoul (first_token rest)).1 = 0 ∧
            (strtoul (first_token rest)).2 = 0) := by
          intro h; rw [r8.mp h] at h2; cases h2
        have h2' : has_leading_hex_digit
            (List.takeWhile (fun c => decide (c ≠ ' ')) rest) = true := h2
        rw [if_neg n2, if_pos h2']
        simp only [strtoul_uint16, strtoul_uint8, mutex_lock, mutex_unlock, outb,
          Nat.mod_mod, List.append_assoc]
        rfl
      · have y2 : uint8_t (strtoul (first_token rest)).1 = 0 ∧
            (strtoul (first_token rest)).2 = 0 := r8.mpr (by simpa using h2)
        have h2' : ¬ has_leading_hex_digit
            (List.takeWhile (fun c => decide (c ≠ ' ')) rest) = true := h2
        rw [if_pos y2, if_neg h2']
        simp [mutex_lock, mutex_unlock, EINVAL]
  · have y1 : uint16_t (strtoul (first_token (cstr buf))).1 = 0 ∧
        (strtoul (first_token (cstr buf))).2 = 0 := r16.mpr (by simpa using h1)
    rw [if_pos y1, if_neg h1]
    simp [mutex_lock, mutex_unlock, EINVAL]

theorem strcpy_fits_iff (buf : List Char) (count : Nat) :
    strcpy_fits buf count = true ↔ (cstr buf).length < count := by
  simp [strcpy_fits, Nat.lt_iff_add_one_le]

/-- When the text and its NUL fit in `clone` (`strlen(buf) < count`),
`setreg_store` writes exactly one register or nothing: if the first
space-separated token has a leading hexadecimal digit, and there is a second
space-separated token and it has a leading hexadecimal digit, the callback
performs exactly the events lock, `outb(value mod 256, addr mod 65536)`,
unlock, where `addr` and `value` are the hexadecimal numbers of the two
tokens, the port written reads back the value, and the callback returns
`count` (for `count` below `2 ^ 63`); otherwise it returns `-EINVAL`, performs
only lock and unlock, and leaves every port as it was. -/
theorem setreg_store_within_clone (buf : List Char) (count : Nat) (w : World)
    (hcount : count < 2 ^ 63) (hfit : (cstr buf).length < count) :
    (∀ tok2, has_leading_hex_digit (first_token (cstr buf)) = true →
        second_token (cstr buf) = some tok2 → has_leading_hex_digit tok2 = true →
        (setreg_store buf count w).1 = some (count : Int) ∧
        (setreg_store buf count w).2.trace = w.trace ++
          [Event.lock,
           Event.outb (hex_number tok2 % 256) (hex_number (first_token (cstr buf)) % 65536),
           Event.unlock] ∧
        (∀ p, (setreg_store buf count w).2.ports p =
          if p = hex_number (first_token (cstr buf)) % 65536 then hex_number tok2 % 256
          else w.ports p)) ∧
    (¬ (has_leading_hex_digit (first_token (cstr buf)) = true ∧
        ∃ tok2, second_token (cstr buf) = some tok2 ∧ has_leading_hex_digit tok2 = true) →
        (setreg_store buf count w).1 = some (-(EINVAL : Int)) ∧
        (setreg_store buf count w).2.trace = w.trace ++ [Event.lock, Event.unlock] ∧
        (setreg_store buf count w).2.ports = w.ports) := by
  have hf : strcpy_fits buf count = true := (strcpy_fits_iff buf count).mpr hfit
  rw [setreg_store_eq]
  simp only [hf, if_true]
  constructor
  · intro tok2 h1 hs h2
    rw [if_pos h1, hs]
    simp only []
    rw [if_pos h2]
    exact ⟨by rw [ssize_t_of_lt count hcount], rfl, fun p => rfl⟩
  · intro hnot
    by_cases h1 : has_leading_hex_digit (first_token (cstr buf)) = true
    · rw [if_pos h1]
      cases hs : second_token (cstr buf) with
      | none => exact ⟨rfl, rfl, rfl⟩
      | some tok2 =>
        have h2 : ¬ has_leading_hex_digit tok2 = true := fun h => hnot ⟨h1, tok2, hs, h⟩
        simp only []
        rw [if_neg h2]
        exact ⟨rfl, rfl, rfl⟩
    · rw [if_neg h1]
      exact ⟨rfl, rfl, rfl⟩

/-- Instances of `setreg_store_within_clone`, each for a write that carries a
NUL after its text so that the text fits in `clone`: `0 0` writes value 0 to
port 0 and returns the count, `a162 3f` writes `0x3f` to port `0xa162`, and
`80  1` with two consecutive spaces is rejected with `-EINVAL` and no port
write. -/
theorem setreg_store_within_clone_instances :
    ((setreg_store ("0 0".toList ++ [NUL]) 4 ⟨fun _ => 0xFF, 0, []⟩).1 = some 4 ∧
     (setreg_store ("0 0".toList ++ [NUL]) 4 ⟨fun _ => 0xFF, 0, []⟩).2.trace =
        [Event.lock, Event.outb 0 0, Event.unlock]) ∧
    ((setreg_store ("a162 3f".toList ++ [NUL]) 8 ⟨fun _ => 0xFF, 0, []⟩).2.trace =
        [Event.lock, Event.outb 0x3f 0xa162, Event.unlock]) ∧
    ((setreg_store ("80  1".toList ++ [NUL]) 6 ⟨fun _ => 0xFF, 0, []⟩).1 =
        some (-(EINVAL : Int)) ∧
     (setreg_store ("80  1".toList ++ [NUL]) 6 ⟨fun _ => 0xFF, 0, []⟩).2.trace =
        [Event.lock, Event.unlock]) := by
  have a := (setreg_store_within_clone ("0 0".toList ++ [NUL]) 4 ⟨fun _ => 0xFF, 0, []⟩
    (by norm_num) (by decide)).1 ['0'] (by decide) (by decide) (by decide)
  have b := (setreg_store_within_clone ("a162 3f".toList ++ [NUL]) 8 ⟨fun _ => 0xFF, 0, []⟩
    (by norm_num) (by decide)).1 ['3', 'f'] (by decide) (by decide) (by decide)
  have c := (setreg_store_within_clone ("80  1".toList ++ [NUL]) 6 ⟨fun _ => 0xFF, 0, []⟩
    (by norm_num) (by decide)).2 (by decide)
  exact ⟨⟨a.1, a.2.1⟩, b.2.1, ⟨c.1, c.2.1⟩⟩

/-- C11 (the code at the failing input): a write of the three characters
`0 0` reaches `setreg_store` with `count = 3` and a NUL after the text.  Both
tokens have a leading hexadecimal digit, and the callback performs the one
port write `outb(0, 0)`; but `strcpy` writes four bytes into `char clone[3]`,
one past its end, so the value returned is not determined (`none`) where the
claim says `count`.  The same holds for every write whose text has no NUL
before `count`: then `strlen(buf) = count`. -/
theorem setreg_store_overruns_clone :
    has_leading_hex_digit (first_token (cstr "0 0".toList)) = true ∧
    second_token (cstr "0 0".toList) = some ['0'] ∧
    has_leading_hex_digit ['0'] = true ∧
    (cstr "0 0".toList).length + 1 = 4 ∧
    (setreg_store "0 0".toList 3 ⟨fun _ => 0xFF, 0, []⟩).1 = none ∧
    (setreg_store "0 0".toList 3 ⟨fun _ => 0xFF, 0, []⟩).2.trace =
      [Event.lock, Event.outb 0 0, Event.unlock] ∧
    (∀ (buf : List Char) (w : World),
      (setreg_store buf (cstr buf).length w).1 = none) := by
  refine ⟨by decide, by decide, by decide, by decide, ?_, ?_, ?_⟩
  · rw [setreg_store_eq]; decide
  · rw [setreg_store_eq]; decide
  · intro buf w
    have hf : strcpy_fits buf (cstr buf).length = false := by
      simp [strcpy_fits]
    rw [setreg_store_eq]
    simp only [hf, Bool.false_eq_true, if_false]
    split_ifs
    · split
      · rfl
      · split_ifs <;> rfl
    · rfl

end BaseboardLpc
